import Mathlib

/-!
Shallow embedding of the Api_pdf SINAPI budget/composition parsing pipeline
(`app/core/money.py`, `app/core/sanitizer.py`, `app/core/pdf_text.py`,
`app/bases/sinapi/parser.py`, `app/bases/sinapi/composicoes_parser.py`)
and proofs about the claims of its specification.

Modelling conventions:
* Python strings are modelled as `List Char` (`Str`); the character repertoire
  of the analysed documents is Latin-1, and Unicode NFKD decomposition is
  modelled by a Latin-1 de-accenting table.
* Python `float` values are modelled exactly as rationals (`ℚ`).  Rational
  arithmetic is performed through executable wrappers (`qmul`, `qadd`, ...)
  built on `mkRat`, which the kernel can evaluate; each wrapper is proved
  equal to the corresponding Mathlib operation.
* Python dicts are modelled as insertion-ordered association lists where an
  assignment to an existing key replaces the value in place.
-/

/-- Executable rational multiplication (`mkRat` based, kernel-reducible). -/
def qmul (a b : ℚ) : ℚ := mkRat (a.num * b.num) (a.den * b.den)

/-- Executable rational addition. -/
def qadd (a b : ℚ) : ℚ := mkRat (a.num * b.den + b.num * a.den) (a.den * b.den)

/-- Executable rational negation. -/
def qneg (a : ℚ) : ℚ := mkRat (-a.num) a.den

/-- Executable rational subtraction. -/
def qsub (a b : ℚ) : ℚ := qadd a (qneg b)

/-- Executable rational absolute value. -/
def qabs (a : ℚ) : ℚ := mkRat |a.num| a.den

/-- Executable rational maximum. -/
def qmax (a b : ℚ) : ℚ := if a ≤ b then b else a

theorem qmul_eq (a b : ℚ) : qmul a b = a * b := by
  conv_rhs => rw [← Rat.num_divInt_den a, ← Rat.num_divInt_den b]
  rw [Rat.divInt_mul_divInt _ _ (Int.natCast_ne_zero.2 a.den_nz) (Int.natCast_ne_zero.2 b.den_nz)]
  rw [qmul, Rat.mkRat_eq_divInt, Int.natCast_mul]

theorem qneg_eq (a : ℚ) : qneg a = -a := by
  rw [qneg, Rat.mkRat_eq_divInt, ← Rat.neg_divInt, Rat.num_divInt_den]

theorem qadd_eq (a b : ℚ) : qadd a b = a + b := by
  conv_rhs => rw [← Rat.num_divInt_den a, ← Rat.num_divInt_den b]
  rw [Rat.divInt_add_divInt _ _ (Int.natCast_ne_zero.2 a.den_nz) (Int.natCast_ne_zero.2 b.den_nz)]
  rw [qadd, Rat.mkRat_eq_divInt, Int.natCast_mul]

theorem qsub_eq (a b : ℚ) : qsub a b = a - b := by
  rw [qsub, qadd_eq, qneg_eq, sub_eq_add_neg]

theorem qabs_eq (a : ℚ) : qabs a = |a| := by
  rcases le_or_lt 0 a with h | h
  · rw [abs_of_nonneg h, qabs, abs_of_nonneg (Rat.num_nonneg.2 h), Rat.mkRat_self]
  · rw [abs_of_neg h, qabs, abs_of_neg (Rat.num_neg.2 h), Rat.mkRat_eq_divInt,
      ← Rat.neg_divInt, Rat.num_divInt_den]

theorem qmax_eq (a b : ℚ) : qmax a b = max a b := by
  rw [qmax, max_comm, max_def]
  rcases le_total a b with h | h
  · rw [if_pos h]
    rcases eq_or_lt_of_le h with rfl | hlt
    · simp
    · rw [if_neg (not_le.2 hlt)]
  · rcases eq_or_lt_of_le h with rfl | hlt
    · simp
    · rw [if_neg (not_le.2 hlt), if_pos h]

/-! ## Strings -/

/-- Python strings, modelled as lists of characters. -/
abbrev Str := List Char

/-- Build a `Str` from a Lean string literal. -/
def str (s : String) : Str := s.data

/-- Characters treated as whitespace by Python's `str.strip` and by `\s`
in the `re` module, restricted to the Latin-1 repertoire of the documents
(ASCII whitespace plus the no-break space U+00A0). -/
def isPySpace (c : Char) : Bool :=
  c = ' ' || c = Char.ofNat 9 || c = Char.ofNat 10 || c = Char.ofNat 13 ||
    c = Char.ofNat 11 || c = Char.ofNat 12 || c = Char.ofNat 0xa0

/-- `str.lstrip()`. -/
def pyStripLeft (s : Str) : Str := s.dropWhile isPySpace

/-- `str.rstrip()`. -/
def pyStripRight (s : Str) : Str := (s.reverse.dropWhile isPySpace).reverse

/-- `str.strip()`. -/
def pyStrip (s : Str) : Str := pyStripRight (pyStripLeft s)

/-- Decimal digit test (`\d` on the ASCII inputs of the documents). -/
def isDigitC (c : Char) : Bool := '0' ≤ c && c ≤ '9'

/-- Worker for `collapseRuns1`; the flag records whether the scan is inside
a whitespace run whose single replacement blank was already emitted. -/
def collapseRuns1Go : Bool → Str → Str
  | _, [] => []
  | inRun, c :: t =>
    if isPySpace c then
      if inRun then collapseRuns1Go true t else ' ' :: collapseRuns1Go true t
    else c :: collapseRuns1Go false t

/-- Replace every maximal run of whitespace by a single blank
(`re.sub(r"\s+", " ", s)`). -/
def collapseRuns1 (s : Str) : Str := collapseRuns1Go false s

/-- Worker for `collapseRuns2`; the flag records whether the scan is inside
a run of length at least two whose replacement blank was already emitted. -/
def collapseRuns2Go : Bool → Str → Str
  | _, [] => []
  | true, c :: t =>
    if isPySpace c then collapseRuns2Go true t else c :: collapseRuns2Go false t
  | false, c :: t =>
    if isPySpace c then
      match t with
      | [] => [c]
      | d :: _ =>
        if isPySpace d then ' ' :: collapseRuns2Go true t else c :: collapseRuns2Go false t
    else c :: collapseRuns2Go false t

/-- Replace every run of two or more whitespace characters by a single blank,
keeping lone whitespace characters (`re.sub(r"\s{2,}", " ", s)`). -/
def collapseRuns2 (s : Str) : Str := collapseRuns2Go false s

/-- `colapsar_espacos` from `composicoes_parser.py`: replace `\n` by a blank,
collapse whitespace runs, strip. -/
def colapsar (s : Str) : Str :=
  pyStrip (collapseRuns1 (s.map fun c => if c = Char.ofNat 10 then ' ' else c))

/-- `_normalize_space` from `sanitizer.py`: replace U+00A0 by a blank, strip,
then collapse runs of two or more whitespace characters. -/
def normalizeSpace (s : Str) : Str :=
  collapseRuns2 (pyStrip (s.map fun c => if c = Char.ofNat 0xa0 then ' ' else c))

/-- `limpar` from `composicoes_parser.py` on a string cell:
`str(x).replace("\r", "\n").strip()`. -/
def limparStr (s : Str) : Str :=
  pyStrip (s.map fun c => if c = Char.ofNat 13 then Char.ofNat 10 else c)

/-- Index of the first occurrence of `needle` in `hay` (`str.find`),
`none` when absent. -/
def findSub (hay needle : Str) : Option Nat :=
  if needle.isPrefixOf hay then some 0
  else
    match hay with
    | [] => none
    | _ :: t => (findSub t needle).map (· + 1)

/-- Python's `needle in hay` substring test. -/
def containsSub (hay needle : Str) : Bool := (findSub hay needle).isSome

/-- Worker for `replaceSub`; every step consumes at least one character, so
a fuel equal to the initial length is always sufficient. -/
def replaceSubGo (pat repl : Str) : Nat → Str → Str
  | _, [] => []
  | 0, s => s
  | fuel + 1, c :: t =>
    if !pat.isEmpty && pat.isPrefixOf (c :: t) then
      repl ++ replaceSubGo pat repl fuel ((c :: t).drop pat.length)
    else c :: replaceSubGo pat repl fuel t

/-- `str.replace(pat, repl)` for a non-empty pattern (left-to-right,
non-overlapping). -/
def replaceSub (s pat repl : Str) : Str := replaceSubGo pat repl s.length s

/-- Remove every occurrence of one character (`str.replace(c, "")`). -/
def removeChar (c : Char) (s : Str) : Str := s.filter (· ≠ c)

/-- `str.startswith`. -/
def startsWith (s p : Str) : Bool := p.isPrefixOf s

/-! ## Character case and accents (Latin-1 repertoire) -/

/-- Python `str.lower()` on one character, for the Latin-1 repertoire. -/
def pyLower (c : Char) : Char :=
  if 'A' ≤ c && c ≤ 'Z' then Char.ofNat (c.toNat + 32)
  else if 0xC0 ≤ c.toNat && c.toNat ≤ 0xDE && c.toNat ≠ 0xD7 then Char.ofNat (c.toNat + 32)
  else c

/-- Python `str.upper()` on one character, for the Latin-1 repertoire. -/
def pyUpper (c : Char) : Char :=
  if 'a' ≤ c && c ≤ 'z' then Char.ofNat (c.toNat - 32)
  else if 0xE0 ≤ c.toNat && c.toNat ≤ 0xFE && c.toNat ≠ 0xF7 then Char.ofNat (c.toNat - 32)
  else c

/-- NFKD decomposition followed by removal of combining marks, per character,
for the Latin-1 letters appearing in the documents
(`unicodedata.normalize("NFKD", s)` + drop of category `Mn`). -/
def deaccentChar (c : Char) : Char :=
  let n := c.toNat
  if 0xC0 ≤ n && n ≤ 0xC5 then 'A'
  else if n = 0xC7 then 'C'
  else if 0xC8 ≤ n && n ≤ 0xCB then 'E'
  else if 0xCC ≤ n && n ≤ 0xCF then 'I'
  else if n = 0xD1 then 'N'
  else if 0xD2 ≤ n && n ≤ 0xD6 then 'O'
  else if 0xD9 ≤ n && n ≤ 0xDC then 'U'
  else if n = 0xDD then 'Y'
  else if 0xE0 ≤ n && n ≤ 0xE5 then 'a'
  else if n = 0xE7 then 'c'
  else if 0xE8 ≤ n && n ≤ 0xEB then 'e'
  else if 0xEC ≤ n && n ≤ 0xEF then 'i'
  else if n = 0xF1 then 'n'
  else if 0xF2 ≤ n && n ≤ 0xF6 then 'o'
  else if 0xF9 ≤ n && n ≤ 0xFC then 'u'
  else if n = 0xFD || n = 0xFF then 'y'
  else if n = 0xAA then 'a'
  else if n = 0xBA then 'o'
  else if n = 0xB2 then '2'
  else if n = 0xB3 then '3'
  else c

/-- `str.lower()` over a string. -/
def lowerStr (s : Str) : Str := s.map pyLower

/-- `str.upper()` over a string. -/
def upperStr (s : Str) : Str := s.map pyUpper

/-- `_strip_accents_upper` from `composicoes_parser.py`: collapse whitespace,
NFKD-decompose, drop combining marks, uppercase. -/
def stripAccentsUpper (s : Str) : Str :=
  (colapsar s).map fun c => pyUpper (deaccentChar c)

/-- `_norm_code` from `composicoes_parser.py`. -/
def normCode (s : Str) : Str := removeChar ' ' (stripAccentsUpper s)

/-- `_norm_bank` from `composicoes_parser.py`. -/
def normBank (s : Str) : Str := removeChar ' ' (stripAccentsUpper s)

/-! ## Numeric parsers (`app/core/money.py` and `parse_pt_number`) -/

/-- Value of a digit list as a natural number. -/
def digitsVal (s : Str) : Nat := s.foldl (fun a c => 10 * a + (c.toNat - '0'.toNat)) 0

/-- Split a leading `-`/`+` sign off a numeric literal. -/
def splitSign : Str → Bool × Str
  | '-' :: t => (true, t)
  | '+' :: t => (false, t)
  | t => (false, t)

/-- Split the fractional digits after a leading decimal point. -/
def splitDot : Str → Str × Str
  | '.' :: t => (t.takeWhile isDigitC, t.dropWhile isDigitC)
  | t => (([] : Str), t)

/-- Read the exponent part of a `float()` literal (empty means exponent 0). -/
def readExp : Str → Option Int
  | [] => some 0
  | e :: t =>
    if e = 'e' || e = 'E' then
      let sg := splitSign t
      let ed := sg.2.takeWhile isDigitC
      if ed.isEmpty || !(sg.2.dropWhile isDigitC).isEmpty then none
      else some (if sg.1 then -(digitsVal ed : Int) else (digitsVal ed : Int))
    else none

/-- Model of Python's built-in `float()` on a decimal-literal string:
optional sign, digits with at most one point, optional exponent; the result
is the denoted value, exactly, as a rational.  (The special forms `inf`,
`nan` and underscore digit separators never occur in the analysed inputs
and are not modelled; binary rounding is modelled as exact.) -/
def pyFloat (s : Str) : Option ℚ :=
  let s := pyStrip s
  let sg := splitSign s
  let d1 := sg.2.takeWhile isDigitC
  let fd := splitDot (sg.2.dropWhile isDigitC)
  if d1.isEmpty && fd.1.isEmpty then none
  else
    match readExp fd.2 with
    | none => none
    | some e =>
      let m : Int := (digitsVal (d1 ++ fd.1) : Int)
      let m : Int := if sg.1 then -m else m
      let t : Int := e - fd.1.length
      some (if 0 ≤ t then mkRat (m * 10 ^ t.toNat) 1 else mkRat m (10 ^ (-t).toNat))

/-- The anchored regex of `money.py`:
`-?\d{1,3}(?:\.\d{3})*(?:,\d+)?$` — thousands groups of exactly three
digits after the leading 1–3 digits, then an optional decimal-comma part. -/
def matchGroupsTailGo : Nat → Str → Bool
  | _, [] => true
  | 0, _ => false
  | fuel + 1, '.' :: r =>
    ((r.take 3).length = 3 && (r.take 3).all isDigitC) && matchGroupsTailGo fuel (r.drop 3)
  | _ + 1, ',' :: r => !r.isEmpty && r.all isDigitC
  | _ + 1, _ => false

/-- Tail matcher for the first alternative (fuel is the string length, which
always suffices since every loop step consumes at least four characters). -/
def matchGroupsTail (s : Str) : Bool := matchGroupsTailGo s.length s

/-- First alternative of `_PTBR_RE` (`-?\d{1,3}(?:\.\d{3})*(?:,\d+)?$`).
Since the leading `\d{1,3}` is followed by a non-digit in every successful
match, the greedy quantifier must consume the whole leading digit run. -/
def stripMinus : Str → Str
  | '-' :: t => t
  | t => t

def matchPtbrAlt1 (s : Str) : Bool :=
  let s := stripMinus s
  let ds := s.takeWhile isDigitC
  (1 ≤ ds.length && ds.length ≤ 3) && matchGroupsTail (s.dropWhile isDigitC)

/-- Second alternative of `_PTBR_RE` (`-?\d+(?:,\d+)?$`). -/
def matchPtbrAlt2 (s : Str) : Bool :=
  let s := stripMinus s
  let ds := s.takeWhile isDigitC
  let r := s.dropWhile isDigitC
  !ds.isEmpty &&
    (r.isEmpty || (match r with | ',' :: f => !f.isEmpty && f.all isDigitC | _ => false))

/-- `_PTBR_RE.match(s)` as a boolean. -/
def matchPtbr (s : Str) : Bool := matchPtbrAlt1 s || matchPtbrAlt2 s

/-- `parse_ptbr_number` from `app/core/money.py`. -/
def parse_ptbr_number (value : Str) : Option ℚ :=
  let s := removeChar ' ' (replaceSub (pyStrip value) (str "R$") [])
  if s.isEmpty then none
  else if !matchPtbr s then none
  else pyFloat ((removeChar '.' s).map fun c => if c = ',' then '.' else c)

/-- `parse_pt_number` from `composicoes_parser.py`: collapse whitespace,
delete every point, turn commas into points, and accept whatever `float()`
accepts. -/
def parse_pt_number (s : Str) : Option ℚ :=
  let s := colapsar s
  if s.isEmpty then none
  else pyFloat ((removeChar '.' s).map fun c => if c = ',' then '.' else c)

/-! ## Sanitizer (`app/core/sanitizer.py`) -/

/-- Order-preserving de-duplication keeping the first occurrence
(`dict.fromkeys`). -/
def dedupFirst (l : List Str) : List Str :=
  l.foldl (fun acc x => if x ∈ acc then acc else acc ++ [x]) []

/-- `_merge_markers`: filter out empty or blank markers from the static and
dynamic lists, de-duplicate keeping first occurrence, and stably sort by
length, longest first (Python's stable `list.sort(key=len, reverse=True)`:
inserting after equal keys reproduces stability). -/
def mergeMarkers (static dyn : List Str) : List Str :=
  let dyn' := dyn.filter fun m => !m.isEmpty && !(pyStrip m).isEmpty
  let stat := static.filter fun m => !m.isEmpty && !(pyStrip m).isEmpty
  List.insertionSort (fun a b : Str => b.length < a.length) (dedupFirst (stat ++ dyn'))

/-- `clean_inline`: normalise whitespace, then truncate at the earliest
occurrence of any merged marker, right-strip and re-normalise. -/
def cleanInline (text : Str) (stripInlineFrom dyn : List Str) : Str :=
  let s := normalizeSpace text
  let markers := mergeMarkers stripInlineFrom dyn
  if s.isEmpty || markers.isEmpty then s
  else
    let cut := markers.foldl
      (fun acc m =>
        match findSub s m with
        | none => acc
        | some i => some (match acc with | none => i | some j => min j i))
      (none : Option Nat)
    match cut with
    | none => normalizeSpace s
    | some i => normalizeSpace (pyStripRight (s.take i))

/-- `sanitize_lines`: normalise each line, truncate it at inline markers,
then drop it when the (already truncated) text still contains a drop
marker; empty results are dropped as well. -/
def sanitizeLines (lines : List Str) (dropLinesIfContains stripInlineFrom dyn : List Str) :
    List Str :=
  match lines with
  | [] => []
  | ln :: rest =>
    let tail := sanitizeLines rest dropLinesIfContains stripInlineFrom dyn
    let s := normalizeSpace ln
    if s.isEmpty then tail
    else
      let s := cleanInline s stripInlineFrom dyn
      if s.isEmpty then tail
      else if !dropLinesIfContains.isEmpty &&
          dropLinesIfContains.any (fun m => !m.isEmpty && containsSub s m) then tail
      else s :: tail

/-- `contains_any`: does the text contain any merged marker? -/
def containsAny (text : Str) (markers dyn : List Str) : Bool :=
  (mergeMarkers markers dyn).any (containsSub text)

/-! ## Page extraction and ranges (`app/core/pdf_text.py`, range handling in
`parser.py` and `composicoes_parser.py`) -/

/-- `extract_pages_text` from `app/core/pdf_text.py`: 1-based inclusive
range over the pages of an opened document; raises (modelled as `.error`)
when a bound is below 1 or the end exceeds the page count. -/
def extract_pages_text (pages : List Str) (start1 end1 : Int) : Except Str (List Str) :=
  if start1 < 1 ∨ end1 < 1 then
    .error (str "Páginas devem ser 1-based e >= 1")
  else if (pages.length : Int) < end1 then
    .error (str "PDF tem menos páginas do que o pedido")
  else
    .ok (((pages.drop (start1 - 1).toNat).take (end1 - start1 + 1).toNat))

/-- The budget-range gate of `parse_sinapi` (`parser.py` lines 76–85): the
orçamento pages are extracted only when both bounds are non-zero, the start
is at least 1 and the range is not inverted; otherwise the pass is skipped
with a warning.  A raising `extract_pages_text` propagates as `.error`. -/
def orcamentoRangeStep (pages : List Str) (oIni oFim : Int) :
    Except Str (Option (List Str) × List Str) :=
  if oIni ≠ 0 ∧ oFim ≠ 0 ∧ 1 ≤ oIni ∧ oIni ≤ oFim then
    match extract_pages_text pages oIni oFim with
    | .error e => .error e
    | .ok t => .ok (some t, [])
  else
    .ok (none, [str "Orçamento: intervalo de páginas inválido -> orçamento não processado."])

/-- `to_pdf_index` from `composicoes_parser.py`. -/
def toPdfIndex (page : Int) (oneBased : Bool) : Int :=
  if oneBased then page - 1 else page

/-- The composition-range normalisation of `parse_composicoes_sinapi`
(lines 271–285): convert per the configured indexing (skipping the
conversion, with a warning, when 1-based bounds are non-positive), clamp
both indices into `[0, nPages-1]`, and swap when inverted.  Returns the
final 0-based `(start, end)` pair and whether the suspect-range warning was
emitted. -/
def composicoesRange (nPages : Nat) (start1 end1 : Int) (oneBased : Bool) :
    (Int × Int) × Bool :=
  let suspect := oneBased && (decide (start1 ≤ 0) || decide (end1 ≤ 0))
  let s0 := if suspect then start1 else toPdfIndex start1 oneBased
  let e0 := if suspect then end1 else toPdfIndex end1 oneBased
  let s1 := max 0 (min s0 ((nPages : Int) - 1))
  let e1 := max 0 (min e0 ((nPages : Int) - 1))
  if e1 < s1 then ((e1, s1), suspect) else ((s1, e1), suspect)

/-- The composition-pass gate of `parse_sinapi` (`parser.py` lines
126–141): `parse_composicoes_sinapi` runs (with the bounds passed through
unchanged) only when both bounds are non-zero, the start is at least 1 and
the range is not inverted; otherwise the pass is skipped with a warning and
the bounds are discarded, not swapped. -/
def composicoesGate (cIni cFim : Int) : Option (Int × Int) × List Str :=
  if cIni ≠ 0 ∧ cFim ≠ 0 ∧ 1 ≤ cIni ∧ cIni ≤ cFim then
    (some (cIni, cFim), [])
  else
    (none, [str "Composições: não processadas (composicoes_inicio/fim inválidos ou 0). Dica: se você quer composições no JSON, envie um intervalo 1-based válido."])

/-! ## Budget tree builder (`app/bases/sinapi/parser.py`) -/

/-- Number of dot separators in an item string (`item.count(".")`). -/
def countDots (item : Str) : Nat := (item.filter (· = '.')).length

/-- `push_node` from `_parse_orcamento_sintetico` (parser.py lines 275–284),
abstracted over the node payload: the build stack holds `(level, node)`
pairs with the top at the head; pushing computes the new node's level as
`dots + 1`, pops every stack entry whose level is at least the new level,
attaches the node to the surviving top (the parent) and pushes the node.
Returns the new stack together with the chosen parent (`none` if the stack
was exhausted — impossible in the parser, whose stack bottom is the level-0
root). -/
def pushNode {α : Type} (stack : List (Nat × α)) (item : Str) (node : α) :
    List (Nat × α) × Option α :=
  let level := countDots item + 1
  let rest := stack.dropWhile fun e => level ≤ e.1
  ((level, node) :: rest, (rest.head?).map Prod.snd)

/-- Reasons returned by `_validate_item_math`; the code returns formatted
message strings, modelled here as tags. -/
inductive ItemMathReason where
  | contaminated
  | insufficientData
  | ok
  | mismatch
  deriving DecidableEq, Repr

/-- The fields of a leaf item used by `_validate_item_math`. -/
structure ItemFields where
  especificacao : Str
  quant : Str
  custoUnitarioComBdi : Str
  custoParcial : Str

/-- `_validate_item_math` from parser.py (lines 540–565): reject outright on
contaminated description text (when enabled and markers exist); accept as
"insufficient data" when any of the three numeric fields fails to parse;
otherwise compare `quant × custo_unitario_com_bdi` against `custo_parcial`
under `max(tol_abs, |expected| · tol_rel)`. -/
def validateItemMath (it : ItemFields) (tolAbs tolRel : ℚ)
    (failIfContaminatedText : Bool) (toxicMarkers dynamicMarkers : List Str) :
    Bool × ItemMathReason :=
  if failIfContaminatedText && !toxicMarkers.isEmpty &&
      containsAny it.especificacao toxicMarkers dynamicMarkers then
    (false, .contaminated)
  else
    match parse_ptbr_number it.quant, parse_ptbr_number it.custoUnitarioComBdi,
        parse_ptbr_number it.custoParcial with
    | some q, some u, some p =>
      let expected := qmul q u
      let tol := qmax tolAbs (qmul (qabs expected) tolRel)
      if qabs (qsub expected p) ≤ tol then (true, .ok) else (false, .mismatch)
    | _, _, _ => (true, .insufficientData)

/-- Budget tree nodes as consumed by `_validate_tree_math`: a leaf item
carries its raw `custo_parcial` string, a group carries its raw
`custo_total` string and its children. -/
inductive BNode where
  | item (itemNumber : Str) (custoParcial : Str)
  | group (itemNumber : Str) (custoTotal : Str) (filhos : List BNode)

/-- Diagnostics produced by `_validate_tree_math`, modelled structurally
(the code appends formatted strings/dicts). -/
inductive TreeMsg where
  | avisoCustoTotalNaoNumerico (itemNumber : Str) (raw : Str)
  | divergenciaGrupo (itemNumber : Str) (custoTotal : Str) (soma diff tol : ℚ)
  | erroGrupo (itemNumber : Str) (soma ct tol : ℚ)
  deriving DecidableEq

/-- Configuration slice used by `_validate_tree_math`. -/
structure TreeCfg where
  tolAbs : ℚ
  tolRel : ℚ
  missingTotalValue : Str
  reportAll : Bool

/-- `_validate_tree_math` (parser.py lines 568–623).  Returns the subtree
sum together with the warnings, errors and divergences appended while
processing the given node list, in order.  An item contributes its parsed
`custo_parcial` (0 when unparseable, `parse_ptbr_number(...) or 0.0`); a
group contributes its children's sum and is checked against its own
declared total unless that total, stripped, is empty or equals the
configured missing-value sentinel. -/
def validateTreeMath (cfg : TreeCfg) :
    List BNode → ℚ × List TreeMsg
  | [] => (0, [])
  | BNode.item _ parcial :: rest =>
    let (s, msgs) := validateTreeMath cfg rest
    (qadd ((parse_ptbr_number parcial).getD 0) s, msgs)
  | BNode.group itn ct fs :: rest =>
    let (childSum, childMsgs) := validateTreeMath cfg fs
    let ctRaw := pyStrip ct
    let own :=
      if ctRaw.isEmpty || ctRaw = cfg.missingTotalValue then []
      else
        match parse_ptbr_number ctRaw with
        | none => [TreeMsg.avisoCustoTotalNaoNumerico itn ctRaw]
        | some v =>
          let tol := qmax cfg.tolAbs (qmul (qabs v) cfg.tolRel)
          let diff := qsub childSum v
          (if cfg.reportAll || tol < qabs diff then
            [TreeMsg.divergenciaGrupo itn ctRaw childSum diff tol] else []) ++
          (if tol < qabs diff then [TreeMsg.erroGrupo itn childSum v tol] else [])
    let (restSum, restMsgs) := validateTreeMath cfg rest
    (qadd childSum restSum, childMsgs ++ own ++ restMsgs)

/-! ## Python dict model -/

/-- Insertion-ordered dictionary: assignment to an existing key replaces the
value in place, a new key is appended at the end (CPython dict semantics). -/
def dinsert {α : Type} (m : List (Str × α)) (k : Str) (v : α) : List (Str × α) :=
  match m with
  | [] => [(k, v)]
  | (k', v') :: t => if k' = k then (k, v) :: t else (k', v') :: dinsert t k v

/-- Dictionary lookup (`m.get(k)`). -/
def dlookup {α : Type} : List (Str × α) → Str → Option α
  | [], _ => none
  | kv :: t, k => if kv.1 = k then some kv.2 else dlookup t k

/-! ## Python tuple/string ordering (for `list.sort()` of scored tuples) -/

/-- Python string `<` (lexicographic by code point). -/
def strLtB : Str → Str → Bool
  | [], [] => false
  | [], _ :: _ => true
  | _ :: _, [] => false
  | a :: as, b :: bs => if a = b then strLtB as bs else decide (a.toNat < b.toNat)

/-- Python string `<=`. -/
def strLeB (a b : Str) : Bool := strLtB a b || a = b

/-- Python `<` on the `(size-diff, -max-len)` score pairs. -/
def pairLtB (p q : Nat × Int) : Bool := p.1 < q.1 || (p.1 = q.1 && p.2 < q.2)

/-- Python `<=` on scored `((diff, -maxlen), candidate)` tuples, comparing
the score pair first and the candidate string last — exactly the
lexicographic tuple order `list.sort()` uses on `(diff, -maxlen, cand)`. -/
def tripLeB (x y : (Nat × Int) × Str) : Bool :=
  pairLtB x.1 y.1 || (x.1 = y.1 && strLeB x.2 y.2)

/-! ## difflib.SequenceMatcher model (used by `detect_row_type`)

The analysed strings are at most 10 characters long, so `difflib`'s
autojunk never applies; `ratio()` is `2*M/T` where `M` is the total size of
the matching blocks computed by the recursive longest-matching-block
algorithm and `T` the total length.  The comparison `ratio() >= 0.60` is
exact for these sizes and is modelled as `10*M >= 3*T`. -/

/-- Length of the common prefix of two strings. -/
def commonLen : Str → Str → Nat
  | a :: as, b :: bs => if a = b then commonLen as bs + 1 else 0
  | _, _ => 0

/-- `find_longest_match` (junk-free): the longest matching block, earliest
in `a` then earliest in `b` among maximal ones. -/
def bestMatch (a b : Str) : Nat × Nat × Nat :=
  (List.range a.length).foldl
    (fun acc i =>
      (List.range b.length).foldl
        (fun acc j =>
          let k := commonLen (a.drop i) (b.drop j)
          if acc.2.2 < k then (i, j, k) else acc)
        acc)
    (0, 0, 0)

/-- Total size of the matching blocks (`get_matching_blocks`), computed by
recursing left and right of the longest match.  The fuel bounds the
recursion depth, which never exceeds the combined length. -/
def matchSum : Nat → Str → Str → Nat
  | 0, _, _ => 0
  | fuel + 1, a, b =>
    let m := bestMatch a b
    if m.2.2 = 0 then 0
    else
      matchSum fuel (a.take m.1) (b.take m.2.1) + m.2.2 +
        matchSum fuel (a.drop (m.1 + m.2.2)) (b.drop (m.2.1 + m.2.2))

/-- `SequenceMatcher(None, a, b).ratio() >= 0.60`, exactly. -/
def ratioGE60 (a b : Str) : Bool :=
  3 * (a.length + b.length) ≤ 10 * matchSum (a.length + b.length + 1) a b

/-! ## Composition block extractor (`app/bases/sinapi/composicoes_parser.py`) -/

/-- Row categories recognised by `detect_row_type`. -/
inductive RowType where
  | insumo
  | composicaoAuxiliar
  | composicao
  deriving DecidableEq, Repr

/-- Character class `[a-zà-úç]` of `detect_row_type` (the `ç` at U+00E7 lies
inside the U+00E0–U+00FA range). -/
def rowWordChar (c : Char) : Bool :=
  ('a' ≤ c && c ≤ 'z') || (0xE0 ≤ c.toNat && c.toNat ≤ 0xFA)

/-- `detect_row_type` (composicoes_parser.py lines 140–167): lowercase and
collapse the first cell, drop a glued leading `o`, keep only letters,
de-accent; then classify by substring/startswith tests against
"insumo"/"compos", falling back to `difflib` similarity against "insumo"
and "composicao". -/
def detect_row_type (c0raw : Str) : Option RowType :=
  let c0 := lowerStr (colapsar c0raw)
  if c0.isEmpty then none
  else
    let c0 := pyStrip
      (match c0 with
       | 'o' :: t =>
         if startsWith t (str "compos") || startsWith t (str "insumo") then t else 'o' :: t
       | s => s)
    let letters := c0.filter rowWordChar
    let letters := lowerStr (stripAccentsUpper letters)
    if containsSub (letters.take 12) (str "insumo") || startsWith letters (str "insu") then
      some .insumo
    else if containsSub (letters.take 14) (str "compos") || startsWith letters (str "comp") then
      if containsSub c0 (str "auxiliar") || containsSub letters (str "auxiliar") then
        some .composicaoAuxiliar
      else some .composicao
    else
      let head := letters.take 10
      if ratioGE60 (head.take 6) (str "insumo") then some .insumo
      else if ratioGE60 (head.take 9) (str "composicao") then
        if containsSub c0 (str "auxiliar") || containsSub letters (str "auxiliar") then
          some .composicaoAuxiliar
        else some .composicao
      else none

/-- A table cell as returned by the PDF table extractor (`None` or text). -/
abbrev Cell := Option Str

/-- A table row. -/
abbrev Row := List Cell

/-- `limpar` on a cell (`None` becomes the empty string). -/
def limparCell : Cell → Str
  | none => []
  | some s => limparStr s

/-- `row_get`: cleaned cell at an index, empty when out of range. -/
def rowGet (row : Row) (idx : Nat) : Str :=
  if row.length ≤ idx then [] else limparCell ((row.get? idx).getD none)

/-- `normalize_row`: re-join a "Composição" split across the first two
cells (`["Composiçã", "o", ...]` and the glued `"o aux…"` variant). -/
def normalizeRow (row : Row) : Row :=
  match row with
  | c0 :: c1 :: rest =>
    let l0 := lowerStr (colapsar (limparCell c0))
    let l1 := lowerStr (colapsar (limparCell c1))
    if startsWith l0 (str "compos") && (l1 = str "o" || startsWith l1 (str "o aux")) then
      some (limparCell c0 ++ ' ' :: limparCell c1) :: rest
    else row
  | _ => row

/-- Tail of `_RE_ITEM` after the leading digit run (`(\.\d+)*$`); fuel is
the string length, sufficient since every loop step consumes a dot. -/
def itemNumTailGo : Nat → Str → Bool
  | _, [] => true
  | 0, _ => false
  | fuel + 1, '.' :: r =>
    !(r.takeWhile isDigitC).isEmpty && itemNumTailGo fuel (r.dropWhile isDigitC)
  | _ + 1, _ => false

/-- `_RE_ITEM.match` (`^\d+(\.\d+)*$`). -/
def matchesItemNum (s : Str) : Bool :=
  !(s.takeWhile isDigitC).isEmpty &&
    itemNumTailGo (s.dropWhile isDigitC).length (s.dropWhile isDigitC)

/-- `is_item_header_row`: first cell is a dotted item number and the second
starts with "cód"/"cod". -/
def isItemHeaderRow (row : Row) : Bool :=
  match row with
  | c0 :: c1 :: _ =>
    let s0 := colapsar (limparCell c0)
    let s1 := lowerStr (colapsar (limparCell c1))
    matchesItemNum s0 && (startsWith s1 (str "cód") || startsWith s1 (str "cod"))
  | _ => false

/-- `is_column_header_only`: empty first cell, "cód"/"cod" second cell. -/
def isColumnHeaderOnly (row : Row) : Bool :=
  match row with
  | c0 :: c1 :: _ =>
    let s0 := colapsar (limparCell c0)
    let s1 := lowerStr (colapsar (limparCell c1))
    s0.isEmpty && (startsWith s1 (str "cód") || startsWith s1 (str "cod"))
  | _ => false

/-- Split a string at the first occurrence of a separator character. -/
def splitFirst (s : Str) (sep : Char) : Option (Str × Str) :=
  match s with
  | [] => none
  | c :: t =>
    if c = sep then some ([], t)
    else (splitFirst t sep).map fun p => (c :: p.1, p.2)

/-- `split_codigo_banco_embutido`: `"00000367/ SINAPI"` becomes
`("00000367", "SINAPI")`. -/
def split_codigo_banco_embutido (s : Str) : Str × Str :=
  let s := colapsar s
  match splitFirst s '/' with
  | none => (s, [])
  | some (a, b) => (pyStrip a, colapsar b)

/-- `_make_id`: the raw (unnormalised) `"{codigo}|{banco}"` identity key. -/
def makeId (c b : Str) : Str := colapsar c ++ '|' :: colapsar b

/-- `_make_id_norm`. -/
def makeIdNorm (c b : Str) : Str := normCode c ++ '|' :: normBank b

/-- `_split_id`. -/
def splitId (raw : Str) : Str × Str :=
  let raw := colapsar raw
  match splitFirst raw '|' with
  | none => (raw, [])
  | some (a, b) => (pyStrip a, pyStrip b)

/-- `_prefix_match`: after normalisation, one code is a prefix of the other,
both are at least `minLen` long and their lengths differ by at most
`maxMissing`. -/
def prefixMatch (a b : Str) (maxMissing minLen : Nat) : Bool :=
  let a := normCode a
  let b := normCode b
  if a.isEmpty || b.isEmpty then false
  else if min a.length b.length < minLen then false
  else if maxMissing < max a.length b.length - min a.length b.length then false
  else startsWith a b || startsWith b a

/-- The `(size-difference, -max-length)` score used by
`_choose_best_prefix_candidate` on normalised codes. -/
def pairScore (expn cn : Str) : Nat × Int :=
  (max expn.length cn.length - min expn.length cn.length,
   -(max expn.length cn.length : Int))

/-- `_choose_best_prefix_candidate` (composicoes_parser.py lines 214–235):
score every candidate against the normalised expected code, sort the
scored tuples (Python tuple order: score pair first, candidate string
last), and return the head unless the runner-up ties on the score pair. -/
def chooseBestPrefixCand (expectedCode : Str) (cands : List Str) : Option Str :=
  match cands with
  | [] => none
  | _ :: _ =>
    let expn := normCode expectedCode
    let scored := cands.map fun c => (pairScore expn (normCode c), c)
    let sorted := List.insertionSort (fun x y : (Nat × Int) × Str => tripLeB x y = true) scored
    match sorted with
    | [] => none
    | [b] => some b.2
    | b :: s :: _ => if b.1 = s.1 then none else some b.2

/-- A composition/insumo line (`LinhaComposicao`/`LinhaInsumo` from
`schemas.py`; the two are structurally identical). -/
structure Linha where
  codigo : Str
  banco : Str
  descricao : Str
  tipo : Str
  und : Str
  quant : Option ℚ
  valorUnit : Option ℚ
  total : Option ℚ
  bancoColuna : Str
  deriving DecidableEq

/-- `BlocoComposicao` from `schemas.py`. -/
structure Bloco where
  item : Str
  principal : Linha
  composicoesAuxiliares : List Linha
  insumos : List Linha
  deriving DecidableEq

/-- The entry dictionary built by `build_entry_from_row`. -/
structure Entry where
  codigo : Str
  banco : Str
  bancoColuna : Str
  descricao : Str
  tipo : Str
  und : Str
  quant : Option ℚ
  valorUnit : Option ℚ
  total : Option ℚ
  deriving DecidableEq

/-- `build_entry_from_row` (composicoes_parser.py lines 170–195): read the
cells, split an embedded bank out of the code cell for insumo rows (the
embedded bank takes precedence over the bank column), parse the three
numeric cells. -/
def buildEntryFromRow (row : Row) (rt : RowType) : Entry :=
  let codigoRaw := rowGet row 1
  let bancoCol := colapsar (rowGet row 2)
  let codigo0 := colapsar codigoRaw
  let (codigo, bancoEmb) :=
    if rt = .insumo then
      let p := split_codigo_banco_embutido codigoRaw
      if !p.2.isEmpty then (p.1, p.2) else (codigo0, ([] : Str))
    else (codigo0, ([] : Str))
  { codigo := codigo
    banco := if !bancoEmb.isEmpty then bancoEmb else bancoCol
    bancoColuna := bancoCol
    descricao := colapsar (rowGet row 3)
    tipo := colapsar (rowGet row 4)
    und := colapsar (rowGet row 5)
    quant := parse_pt_number (rowGet row 6)
    valorUnit := parse_pt_number (rowGet row 7)
    total := parse_pt_number (rowGet row 8) }

/-- The `Linha` built from an entry (the keyword fields passed to
`LinhaComposicao(...)`/`LinhaInsumo(...)`). -/
def linhaOfEntry (e : Entry) : Linha :=
  { codigo := e.codigo, banco := e.banco, descricao := e.descricao, tipo := e.tipo,
    und := e.und, quant := e.quant, valorUnit := e.valorUnit, total := e.total,
    bancoColuna := e.bancoColuna }

/-- Warnings emitted inside the row loop, modelled structurally (the code
appends formatted strings). -/
inductive CompAviso where
  | codigoTruncadoRecuperado (key recoveredTo : Str)
  deriving DecidableEq

/-- The reconciliation context threaded through the row loop: expected codes
grouped by normalised bank (the `code` fields of `expected_by_bank`) and
the `id_to_item` map, both built from the budget pass's item references. -/
structure RecCtx where
  expectedByBank : List (Str × List Str)
  idToItem : List (Str × Str)

/-- A context with no expected references (an empty `item_refs`). -/
def emptyRecCtx : RecCtx := ⟨[], []⟩

/-- `recover_full_code`: candidates are the same-bank expected codes within
loose prefix tolerance (`max_missing=4, min_len=5`), resolved by
`_choose_best_prefix_candidate`. -/
def recoverFullCode (ctx : RecCtx) (codeRaw bankRaw : Str) : Option Str :=
  let exp := (dlookup ctx.expectedByBank (normBank bankRaw)).getD []
  if exp.isEmpty then none
  else chooseBestPrefixCand codeRaw (exp.filter fun e => prefixMatch e codeRaw 4 5)

/-- Mutable state of the row loop of `parse_composicoes_sinapi`. -/
structure CompState where
  principais : List (Str × Bloco)
  auxiliaresGlobais : List (Str × Linha)
  currentItem : Str
  currentBloco : Option Bloco
  recoveredCodes : List (Str × Str)
  avisos : List CompAviso
  erros : List Str
  deriving DecidableEq

/-- The initial row-loop state. -/
def initCompState : CompState := ⟨[], [], [], none, [], [], []⟩

/-- Closing the open block: `principais[pid] = current_bloco`. -/
def flushBloco (st : CompState) : CompState :=
  match st.currentBloco with
  | none => st
  | some b =>
    { st with
      principais := dinsert st.principais (makeId b.principal.codigo b.principal.banco) b
      currentBloco := none }

/-- One iteration of the row loop of `parse_composicoes_sinapi`
(lines 350–451): skip empty/blank rows, handle item-header and
column-header rows, skip "ANEXO 3" rows, classify the first cell and
dispatch.  A composition row closes the previous block, attempts
truncated-code recovery and opens a new block; auxiliary and insumo rows
attach to the open block (auxiliaries are additionally indexed in
`auxiliares_globais`) and are skipped entirely when no block is open. -/
def processRow (ctx : RecCtx) (st : CompState) (rawRow : Row) : CompState :=
  if rawRow.isEmpty then st
  else if rawRow.all
      (fun c => match c with | none => true | some s => (colapsar (limparStr s)).isEmpty) then st
  else
    let row := normalizeRow rawRow
    if isItemHeaderRow row then
      { flushBloco st with currentItem := colapsar (rowGet row 0) }
    else if isColumnHeaderOnly row then st
    else
      let c0 := rowGet row 0
      if containsSub (upperStr (colapsar c0)) (str "ANEXO 3") then st
      else
        match detect_row_type c0 with
        | none => st
        | some rt =>
          let entry := buildEntryFromRow row rt
          match rt with
          | .composicao =>
            let st := flushBloco st
            let rec' :=
              match recoverFullCode ctx entry.codigo entry.banco with
              | some rf =>
                if normCode rf ≠ normCode entry.codigo then
                  let key := makeId entry.codigo entry.banco
                  let st :=
                    if (dlookup st.recoveredCodes key).isSome then st
                    else
                      { st with
                        recoveredCodes := dinsert st.recoveredCodes key rf
                        avisos := st.avisos ++ [CompAviso.codigoTruncadoRecuperado key rf] }
                  ({ entry with codigo := rf }, st)
                else (entry, st)
              | none => (entry, st)
            let entry := rec'.1
            let st := rec'.2
            let pidNorm := makeIdNorm entry.codigo entry.banco
            let itemFinal :=
              if !st.currentItem.isEmpty then st.currentItem
              else (dlookup ctx.idToItem pidNorm).getD []
            { st with currentBloco := some ⟨itemFinal, linhaOfEntry entry, [], []⟩ }
          | .composicaoAuxiliar =>
            match st.currentBloco with
            | none => st
            | some b =>
              let aux := linhaOfEntry entry
              { st with
                currentBloco :=
                  some { b with composicoesAuxiliares := b.composicoesAuxiliares ++ [aux] }
                auxiliaresGlobais :=
                  dinsert st.auxiliaresGlobais (makeId aux.codigo aux.banco) aux }
          | .insumo =>
            match st.currentBloco with
            | none => st
            | some b =>
              { st with currentBloco := some { b with insumos := b.insumos ++ [linhaOfEntry entry] } }

/-- The whole row loop over the page range followed by the final
`if current_bloco is not None` flush. -/
def processRows (ctx : RecCtx) (st : CompState) (rows : List Row) : CompState :=
  flushBloco (rows.foldl (processRow ctx) st)

/-- The principal codes grouped by normalised bank
(`principais_by_bank`, composicoes_parser.py lines 461–464). -/
def principaisByBank (principais : List (Str × Bloco)) : List (Str × List Str) :=
  principais.foldl
    (fun m kv =>
      let cb := splitId kv.1
      match dlookup m (normBank cb.2) with
      | some l => dinsert m (normBank cb.2) (l ++ [cb.1])
      | none => dinsert m (normBank cb.2) [cb.1])
    ([] : List (Str × List Str))

/-- One iteration of the alias loop: skip auxiliaries whose key is itself a
principal key, otherwise try the tight prefix match
(`max_missing=1, min_len=5`) against the same-bank principal codes and
record `"{best}|{aux.banco}"` on an unambiguous best candidate. -/
def aliasStep (principais : List (Str × Bloco)) (al : List (Str × Str)) (kv : Str × Linha) :
    List (Str × Str) :=
  if (dlookup principais kv.1).isSome then al
  else
    let cands := ((dlookup (principaisByBank principais) (normBank kv.2.banco)).getD []).filter
      fun pc => prefixMatch pc kv.2.codigo 1 5
    match chooseBestPrefixCand kv.2.codigo cands with
    | some best => dinsert al kv.1 (best ++ '|' :: kv.2.banco)
    | none => al

/-- The alias-building pass run after the page range is exhausted
(composicoes_parser.py lines 460–474). -/
def buildAliases (principais : List (Str × Bloco)) (auxiliares : List (Str × Linha)) :
    List (Str × Str) :=
  auxiliares.foldl (aliasStep principais) []

/-! ## Theorems -/

theorem head?_dropWhile {α : Type} (p : α → Bool) (l : List α) :
    (l.dropWhile p).head? = l.find? fun a => !p a := by
  induction l with
  | nil => rfl
  | cons a t ih =>
    by_cases h : p a
    · simp [List.dropWhile_cons, List.find?, h, ih]
    · simp [List.dropWhile_cons, List.find?, h]

/-- C1: pushing a node onto the build stack records the level
`countDots item + 1` for it, chooses as parent the nearest (topmost) stack
entry whose level is strictly smaller than the new node's level, and
preserves the strictly-decreasing-levels shape of the stack — for every
stack whatsoever, so sibling ordering noise cannot break the nesting
(an item numbered `9.4.1` nests under the topmost open node of level at
most 2, i.e. under `9.4` whenever `9.4` is open). -/
theorem pushNode_level_parent {α : Type} (stack : List (Nat × α)) (item : Str) (node : α) :
    (pushNode stack item node).1.head? = some (countDots item + 1, node)
    ∧ (pushNode stack item node).2
        = (stack.find? fun e => decide (e.1 < countDots item + 1)).map Prod.snd
    ∧ (List.Pairwise (fun a b : Nat × α => b.1 < a.1) stack →
        List.Pairwise (fun a b : Nat × α => b.1 < a.1) (pushNode stack item node).1) := by
  have hfun : (fun a : Nat × α => !decide (countDots item + 1 ≤ a.1))
      = fun e : Nat × α => decide (e.1 < countDots item + 1) := by
    funext e
    rcases Nat.lt_or_ge e.1 (countDots item + 1) with h | h
    · rw [decide_eq_true h, decide_eq_false (Nat.not_le.2 h)]
      rfl
    · rw [decide_eq_false (Nat.not_lt.2 h), decide_eq_true h]
      rfl
  refine ⟨rfl, ?_, ?_⟩
  · show ((stack.dropWhile fun e => decide (countDots item + 1 ≤ e.1)).head?).map Prod.snd = _
    rw [head?_dropWhile, hfun]
  · intro hpw
    set level := countDots item + 1 with hlevel
    have hsub := List.dropWhile_sublist (l := stack) fun e => decide (level ≤ e.1)
    have hrest : List.Pairwise (fun a b : Nat × α => b.1 < a.1)
        (stack.dropWhile fun e => decide (level ≤ e.1)) := hpw.sublist hsub
    show List.Pairwise _ ((level, node) :: _)
    rw [List.pairwise_cons]
    refine ⟨?_, hrest⟩
    intro e he
    rcases hd : stack.dropWhile (fun e => decide (level ≤ e.1)) with _ | ⟨r, rs⟩
    · rw [hd] at he; cases he
    · have hrhead : ((stack.dropWhile fun e => decide (level ≤ e.1)).head?) = some r := by
        rw [hd]; rfl
      rw [head?_dropWhile, hfun] at hrhead
      have hp := List.find?_some hrhead
      have hrlt : r.1 < level := by simpa using hp
      rw [hd] at he hrest
      rcases List.mem_cons.1 he with rfl | he2
      · exact hrlt
      · rcases List.pairwise_cons.1 hrest with ⟨hall, _⟩
        exact lt_trans (hall e he2) hrlt

/-- Witness for C1 at a concrete stack: pushing `9.4.1` (level 3) onto a
stack whose top entry is `9.4` at level 2 parents it to that entry, and the
stack stays strictly decreasing. -/
theorem pushNode_level_parent_witness :
    (pushNode [(2, 5), (1, 9), (0, 0)] (str "9.4.1") 7).2 = some 5
    ∧ (List.Pairwise (fun a b : Nat × Nat => b.1 < a.1) [(2, 5), (1, 9), (0, 0)] →
        List.Pairwise (fun a b : Nat × Nat => b.1 < a.1)
          (pushNode [(2, 5), (1, 9), (0, 0)] (str "9.4.1") 7).1) := by
  refine ⟨?_, (pushNode_level_parent [(2, 5), (1, 9), (0, 0)] (str "9.4.1") 7).2.2⟩
  rw [(pushNode_level_parent [(2, 5), (1, 9), (0, 0)] (str "9.4.1") 7).2.1]
  decide

theorem dlookup_dinsert_self {α : Type} (m : List (Str × α)) (k : Str) (v : α) :
    dlookup (dinsert m k v) k = some v := by
  induction m with
  | nil => simp [dinsert, dlookup]
  | cons kv t ih =>
    by_cases h : kv.1 = k
    · simp [dinsert, h, dlookup]
    · simpa [dinsert, h, dlookup] using ih

theorem dlookup_dinsert_ne {α : Type} (m : List (Str × α)) (k k' : Str) (v : α)
    (h : k' ≠ k) : dlookup (dinsert m k v) k' = dlookup m k' := by
  induction m with
  | nil => simp [dinsert, dlookup, Ne.symm h]
  | cons kv t ih =>
    by_cases hk : kv.1 = k
    · subst hk
      simp [dinsert, dlookup, Ne.symm h]
    · by_cases hk' : kv.1 = k'
      · simp [dinsert, hk, dlookup, hk', h]
      · simpa [dinsert, hk, dlookup, hk'] using ih

/-- C2 (amended): when the contamination pre-check does not fire
(`fail_if_contaminated_text` off, or no toxic markers configured, or no
marker occurs in the description), `_validate_item_math` accepts an item
whose three numeric fields parse if and only if
`|quant × custoUnitarioComBdi − custoParcial| ≤
 max(tolAbs, tolRel · |quant × custoUnitarioComBdi|)`,
and accepts unconditionally (as "insufficient data", recording nothing)
when any of the three fields does not parse. -/
theorem validateItemMath_spec (it : ItemFields) (tolAbs tolRel : ℚ)
    (failC : Bool) (toxic dyn : List Str)
    (hnc : ¬(failC = true ∧ toxic ≠ [] ∧ containsAny it.especificacao toxic dyn = true)) :
    (∀ q u p, parse_ptbr_number it.quant = some q →
      parse_ptbr_number it.custoUnitarioComBdi = some u →
      parse_ptbr_number it.custoParcial = some p →
      ((validateItemMath it tolAbs tolRel failC toxic dyn).1 = true ↔
        |q * u - p| ≤ max tolAbs (tolRel * |q * u|)))
    ∧ ((parse_ptbr_number it.quant = none ∨
        parse_ptbr_number it.custoUnitarioComBdi = none ∨
        parse_ptbr_number it.custoParcial = none) →
      validateItemMath it tolAbs tolRel failC toxic dyn = (true, .insufficientData)) := by
  have hcond : (failC && !toxic.isEmpty && containsAny it.especificacao toxic dyn) = false := by
    cases failC with
    | false => rfl
    | true =>
      rcases ht : toxic.isEmpty with _ | _
      · rcases hc : containsAny it.especificacao toxic dyn with _ | _
        · simp [ht, hc]
        · refine absurd ⟨rfl, ?_, hc⟩ hnc
          intro hne
          rw [hne] at ht
          simp at ht
      · simp [List.isEmpty_iff.1 ht]
  constructor
  · intro q u p hq hu hp
    rw [validateItemMath, if_neg (by rw [hcond]; exact Bool.false_ne_true), hq, hu, hp]
    have harith : (qabs (qsub (qmul q u) p) ≤ qmax tolAbs (qmul (qabs (qmul q u)) tolRel))
        ↔ |q * u - p| ≤ max tolAbs (tolRel * |q * u|) := by
      simp only [qabs_eq, qsub_eq, qmul_eq, qmax_eq]
      rw [mul_comm (|q * u|) tolRel]
    by_cases hle : qabs (qsub (qmul q u) p) ≤ qmax tolAbs (qmul (qabs (qmul q u)) tolRel)
    · simp only [if_pos hle]
      simpa using harith.1 hle
    · simp only [if_neg hle]
      constructor
      · intro hfalse
        exact absurd hfalse (by simp)
      · intro hb
        exact absurd (harith.2 hb) hle
  · intro hnone
    rw [validateItemMath, if_neg (by rw [hcond]; exact Bool.false_ne_true)]
    rcases hq : parse_ptbr_number it.quant with _ | q <;>
      rcases hu : parse_ptbr_number it.custoUnitarioComBdi with _ | u <;>
        rcases hp : parse_ptbr_number it.custoParcial with _ | p <;>
          simp_all

/-- Counterexample for C2 as frozen: an item whose three numeric fields all
parse and whose arithmetic is exact is nevertheless rejected when its
description contains a configured toxic marker and
`fail_if_contaminated_text` is on — the claimed "accepts if and only if the
tolerance inequality holds" is false without the contamination proviso. -/
theorem validateItemMath_contamination_cex :
    (validateItemMath ⟨str "X BAD Y", str "1,00", str "2,00", str "2,00"⟩
        (mkRat 2 100) (mkRat 2 10000) true [str "BAD"] []).1 = false
    ∧ parse_ptbr_number (str "1,00") = some (mkRat 1 1)
    ∧ parse_ptbr_number (str "2,00") = some (mkRat 2 1)
    ∧ |mkRat 1 1 * mkRat 2 1 - mkRat 2 1|
        ≤ max (mkRat 2 100) (mkRat 2 10000 * |mkRat 1 1 * mkRat 2 1|) := by
  refine ⟨by decide, by decide, by decide, ?_⟩
  have h : qabs (qsub (qmul (mkRat 1 1) (mkRat 2 1)) (mkRat 2 1))
      ≤ qmax (mkRat 2 100) (qmul (mkRat 2 10000) (qabs (qmul (mkRat 1 1) (mkRat 2 1)))) := by
    decide
  simp only [qabs_eq, qsub_eq, qmul_eq, qmax_eq] at h
  exact h

/-- Witness for C2: a clean item with an unparseable `quant` field is
accepted as "insufficient data". -/
theorem validateItemMath_spec_witness :
    ¬(true = true ∧ ([str "NOISE"] : List Str) ≠ [] ∧
        containsAny (str "Alvenaria") [str "NOISE"] [] = true)
    ∧ validateItemMath ⟨str "Alvenaria", str "abc", str "55,00", str "550,00"⟩
        (mkRat 2 100) (mkRat 2 10000) true [str "NOISE"] [] = (true, .insufficientData) :=
  ⟨by decide,
   (validateItemMath_spec ⟨str "Alvenaria", str "abc", str "55,00", str "550,00"⟩
      (mkRat 2 100) (mkRat 2 10000) true [str "NOISE"] [] (by decide)).2
     (Or.inl (by decide))⟩

/-- C3 (amended): the composition page-range normalisation never fails —
for every requested pair of bounds (whatever their signs or order) it
produces a start and end clamped into `[0, nPages-1]` with start ≤ end,
swapping an inverted pair; the budget range, by contrast, is not clamped:
whenever its (gate-accepted) end bound exceeds the page count,
`extract_pages_text` raises and the budget pass fails; and an inverted or
zero range is, in either pass, rejected by the respective gate — the pass
is skipped with a warning, the bounds are not swapped (the budget pass
returns no pages, the composition gate passes nothing through), while a
gate-valid composition range is handed on unchanged. -/
theorem pageRange_normalization (nPages : Nat) (s e : Int) (ob : Bool) (h : 1 ≤ nPages) :
    (0 ≤ ((composicoesRange nPages s e ob).1).1
      ∧ ((composicoesRange nPages s e ob).1).1 ≤ ((composicoesRange nPages s e ob).1).2
      ∧ ((composicoesRange nPages s e ob).1).2 ≤ (nPages : Int) - 1)
    ∧ (∀ (pages : List Str) (oIni oFim : Int), 1 ≤ oIni → oIni ≤ oFim →
        (pages.length : Int) < oFim →
        ∃ msg, orcamentoRangeStep pages oIni oFim = .error msg)
    ∧ (∀ (pages : List Str) (oIni oFim : Int),
        ¬(oIni ≠ 0 ∧ oFim ≠ 0 ∧ 1 ≤ oIni ∧ oIni ≤ oFim) →
        orcamentoRangeStep pages oIni oFim
          = .ok (none,
              [str "Orçamento: intervalo de páginas inválido -> orçamento não processado."]))
    ∧ (∀ cIni cFim : Int,
        (¬(cIni ≠ 0 ∧ cFim ≠ 0 ∧ 1 ≤ cIni ∧ cIni ≤ cFim) →
          composicoesGate cIni cFim
            = (none,
                [str "Composições: não processadas (composicoes_inicio/fim inválidos ou 0). Dica: se você quer composições no JSON, envie um intervalo 1-based válido."]))
        ∧ ((cIni ≠ 0 ∧ cFim ≠ 0 ∧ 1 ≤ cIni ∧ cIni ≤ cFim) →
          composicoesGate cIni cFim = (some (cIni, cFim), []))) := by
  refine ⟨?_, ?_, ?_, ?_⟩
  · have hM : (0 : Int) ≤ (nPages : Int) - 1 := by
      have h1 : (1 : Int) ≤ (nPages : Int) := by exact_mod_cast h
      omega
    rw [composicoesRange]
    set s0 := if (ob && (decide (s ≤ 0) || decide (e ≤ 0))) then s else toPdfIndex s ob with hs0
    set e0 := if (ob && (decide (s ≤ 0) || decide (e ≤ 0))) then e else toPdfIndex e ob with he0
    have ha0 : 0 ≤ max 0 (min s0 ((nPages : Int) - 1)) := le_max_left _ _
    have haM : max 0 (min s0 ((nPages : Int) - 1)) ≤ (nPages : Int) - 1 :=
      max_le hM (min_le_right _ _)
    have hb0 : 0 ≤ max 0 (min e0 ((nPages : Int) - 1)) := le_max_left _ _
    have hbM : max 0 (min e0 ((nPages : Int) - 1)) ≤ (nPages : Int) - 1 :=
      max_le hM (min_le_right _ _)
    by_cases hlt : max 0 (min e0 ((nPages : Int) - 1)) < max 0 (min s0 ((nPages : Int) - 1))
    · simp only [if_pos hlt]
      exact ⟨hb0, le_of_lt hlt, haM⟩
    · simp only [if_neg hlt]
      exact ⟨ha0, not_lt.1 hlt, hbM⟩
  · intro pages oIni oFim h1 h2 hoob
    refine ⟨str "PDF tem menos páginas do que o pedido", ?_⟩
    rw [orcamentoRangeStep,
      if_pos (⟨by omega, by omega, h1, h2⟩ : oIni ≠ 0 ∧ oFim ≠ 0 ∧ 1 ≤ oIni ∧ oIni ≤ oFim),
      extract_pages_text, if_neg (by omega), if_pos hoob]
  · intro pages oIni oFim hgate
    rw [orcamentoRangeStep, if_neg hgate]
  · intro cIni cFim
    exact ⟨fun hgate => by rw [composicoesGate, if_neg hgate],
      fun hgate => by rw [composicoesGate, if_pos hgate]⟩

/-- Counterexample for C3 as frozen: a budget range whose end exceeds the
page count makes the budget pass raise — the request fails instead of being
clamped with a warning. -/
theorem pageRange_budget_oob_cex :
    orcamentoRangeStep [str "p1", str "p2"] 1 5
      = .error (str "PDF tem menos páginas do que o pedido") := by
  rw [orcamentoRangeStep,
    if_pos (⟨by norm_num, by norm_num, by norm_num, by norm_num⟩ :
      (1 : Int) ≠ 0 ∧ (5 : Int) ≠ 0 ∧ (1 : Int) ≤ 1 ∧ (1 : Int) ≤ 5),
    extract_pages_text, if_neg (by norm_num), if_pos (by norm_num)]

/-- Witness for C3: three pages, range (-2, 99), 1-based: suspect branch
keeps the raw bounds, clamping yields 0 ≤ start ≤ end ≤ 2; a concrete
over-long budget range fails; the inverted budget range (5, 2) and the zero
composition range (0, 0) are each skipped with the warning and nothing is
swapped; and the valid composition range (2, 7) passes through unchanged. -/
theorem pageRange_normalization_witness :
    ((1 : Nat) ≤ 3
      ∧ 0 ≤ ((composicoesRange 3 (-2) 99 true).1).1
      ∧ ((composicoesRange 3 (-2) 99 true).1).1 ≤ ((composicoesRange 3 (-2) 99 true).1).2
      ∧ ((composicoesRange 3 (-2) 99 true).1).2 ≤ (3 : Int) - 1)
    ∧ ((1 : Int) ≤ 1 ∧ (1 : Int) ≤ 5 ∧ (([str "p1", str "p2"] : List Str).length : Int) < 5
      ∧ ∃ msg, orcamentoRangeStep [str "p1", str "p2"] 1 5 = .error msg)
    ∧ (¬((5 : Int) ≠ 0 ∧ (2 : Int) ≠ 0 ∧ (1 : Int) ≤ 5 ∧ (5 : Int) ≤ 2)
      ∧ orcamentoRangeStep [str "p1", str "p2"] 5 2
        = .ok (none,
            [str "Orçamento: intervalo de páginas inválido -> orçamento não processado."]))
    ∧ (¬((0 : Int) ≠ 0 ∧ (0 : Int) ≠ 0 ∧ (1 : Int) ≤ 0 ∧ (0 : Int) ≤ 0)
      ∧ composicoesGate 0 0
        = (none,
            [str "Composições: não processadas (composicoes_inicio/fim inválidos ou 0). Dica: se você quer composições no JSON, envie um intervalo 1-based válido."]))
    ∧ (((2 : Int) ≠ 0 ∧ (7 : Int) ≠ 0 ∧ (1 : Int) ≤ 2 ∧ (2 : Int) ≤ 7)
      ∧ composicoesGate 2 7 = (some (2, 7), [])) := by
  refine ⟨⟨by decide, (pageRange_normalization 3 (-2) 99 true (by decide)).1⟩,
    ⟨by decide, by decide, by decide,
      (pageRange_normalization 3 (-2) 99 true (by decide)).2.1 [str "p1", str "p2"] 1 5
        (by decide) (by decide) (by decide)⟩,
    ⟨by decide,
      (pageRange_normalization 3 (-2) 99 true (by decide)).2.2.1 [str "p1", str "p2"] 5 2
        (by decide)⟩,
    ⟨by decide,
      ((pageRange_normalization 3 (-2) 99 true (by decide)).2.2.2 0 0).1 (by decide)⟩,
    ⟨by decide,
      ((pageRange_normalization 3 (-2) 99 true (by decide)).2.2.2 2 7).2 (by decide)⟩⟩

/-- C4: an auxiliary-composition row that arrives while no composition
block is open is skipped by the row loop without touching any state — in
particular it is NOT recorded in `auxiliares_globais` (the
`if current_bloco is None: continue` at composicoes_parser.py line 421
precedes the `auxiliares_globais[...] = aux` assignment at line 437),
contradicting the documented role of that map. -/
theorem auxRow_outside_block_dropped :
    detect_row_type (rowGet (normalizeRow
        [some (str "Composição Auxiliar"), some (str "88316"), some (str "SINAPI"),
         some (str "desc"), some (str ""), some (str "M2"),
         some (str "1,00"), some (str "10,00"), some (str "10,00")]) 0)
      = some .composicaoAuxiliar
    ∧ initCompState.currentBloco = none
    ∧ processRow emptyRecCtx initCompState
        [some (str "Composição Auxiliar"), some (str "88316"), some (str "SINAPI"),
         some (str "desc"), some (str ""), some (str "M2"),
         some (str "1,00"), some (str "10,00"), some (str "10,00")]
      = initCompState
    ∧ dlookup (processRow emptyRecCtx initCompState
        [some (str "Composição Auxiliar"), some (str "88316"), some (str "SINAPI"),
         some (str "desc"), some (str ""), some (str "M2"),
         some (str "1,00"), some (str "10,00"), some (str "10,00")]).auxiliaresGlobais
        (makeId (str "88316") (str "SINAPI"))
      = none := by
  refine ⟨by decide, rfl, by decide, by decide⟩

/-- C9 (amended): every line surviving `sanitize_lines` is the
inline-marker truncation (`clean_inline`) of a whitespace-normalised input
line, is non-empty, and — because the drop test runs on the already
truncated text — contains no non-empty drop marker.  A drop marker lying
after an inline-stop marker in the original line does not cause the line
to be removed: the truncated text survives. -/
theorem sanitizeLines_spec (lines dropIf stripFrom dyn : List Str) (s : Str)
    (hmem : s ∈ sanitizeLines lines dropIf stripFrom dyn) :
    s ≠ [] ∧ (∀ m ∈ dropIf, m ≠ [] → containsSub s m = false)
      ∧ ∃ l ∈ lines, s = cleanInline (normalizeSpace l) stripFrom dyn := by
  induction lines with
  | nil => simp [sanitizeLines] at hmem
  | cons ln rest ih =>
    have step : ∀ hm : s ∈ sanitizeLines rest dropIf stripFrom dyn,
        s ≠ [] ∧ (∀ m ∈ dropIf, m ≠ [] → containsSub s m = false)
          ∧ ∃ l ∈ ln :: rest, s = cleanInline (normalizeSpace l) stripFrom dyn := by
      intro hm
      rcases ih hm with ⟨h1, h2, l, hl, he⟩
      exact ⟨h1, h2, l, List.mem_cons_of_mem _ hl, he⟩
    by_cases h1 : (normalizeSpace ln).isEmpty = true
    · rw [sanitizeLines] at hmem
      simp only [h1, if_true] at hmem
      exact step hmem
    · by_cases h2 : (cleanInline (normalizeSpace ln) stripFrom dyn).isEmpty = true
      · rw [sanitizeLines] at hmem
        simp only [h1, h2, if_false, if_true] at hmem
        exact step hmem
      · by_cases h3 : (!dropIf.isEmpty && dropIf.any fun m =>
            !m.isEmpty && containsSub (cleanInline (normalizeSpace ln) stripFrom dyn) m) = true
        · rw [sanitizeLines] at hmem
          simp only [h1, h2, h3, if_false, if_true] at hmem
          exact step hmem
        · rw [sanitizeLines] at hmem
          simp only [h1, h2, h3, if_false] at hmem
          rcases List.mem_cons.1 hmem with rfl | hmem2
          · refine ⟨by simpa [List.isEmpty_iff] using h2, ?_, ln, List.mem_cons_self _ _, rfl⟩
            intro m hm hmne
            rcases hdrop : dropIf.isEmpty with _ | _
            · have hany : (dropIf.any fun m =>
                  !m.isEmpty && containsSub (cleanInline (normalizeSpace ln) stripFrom dyn) m)
                    = false := by
                rcases hany : (dropIf.any fun m =>
                    !m.isEmpty && containsSub (cleanInline (normalizeSpace ln) stripFrom dyn) m)
                  with _ | _
                · rfl
                · exact absurd (by rw [hdrop, hany]; rfl) h3
              have hno := List.any_eq_false.1 hany m hm
              rcases hc : containsSub (cleanInline (normalizeSpace ln) stripFrom dyn) m with _ | _
              · rfl
              · have hne : m.isEmpty = false := by
                  cases m with
                  | nil => exact absurd rfl hmne
                  | cons a t => rfl
                exact absurd (by rw [hc, hne]; rfl : (!m.isEmpty &&
                  containsSub (cleanInline (normalizeSpace ln) stripFrom dyn) m) = true) hno
            · exact absurd (List.isEmpty_iff.1 hdrop ▸ hm) (List.not_mem_nil m)
          · exact step hmem2

/-- Counterexample for C9 as frozen: the line `"A STOP B DROP"` contains the
drop marker `"DROP"`, yet with inline-stop marker `"STOP"` the sanitizer
keeps it (truncated to `"A"`) instead of removing it — truncation runs
before the drop test. -/
theorem sanitizeLines_drop_after_stop_cex :
    containsSub (str "A STOP B DROP") (str "DROP") = true
    ∧ sanitizeLines [str "A STOP B DROP"] [str "DROP"] [str "STOP"] [] = [str "A"] := by
  refine ⟨by decide, by decide⟩

/-- Witness for C9: the surviving line `"A"` of the counterexample input is
non-empty, contains no drop marker, and is the truncation of its source
line. -/
theorem sanitizeLines_spec_witness :
    str "A" ∈ sanitizeLines [str "A STOP B DROP"] [str "DROP"] [str "STOP"] []
    ∧ (str "A" ≠ []
      ∧ (∀ m ∈ [str "DROP"], m ≠ [] → containsSub (str "A") m = false)
      ∧ ∃ l ∈ [str "A STOP B DROP"],
          str "A" = cleanInline (normalizeSpace l) [str "STOP"] []) :=
  ⟨by decide,
   sanitizeLines_spec [str "A STOP B DROP"] [str "DROP"] [str "STOP"] [] (str "A") (by decide)⟩

/-- C8: `_validate_tree_math` computes each group's subtotal as the sum of
its children's contributions — a leaf item contributes its parsed
`custo_parcial` (0 when unparseable), a group its recursively computed
subtotal — and checks the subtotal against the group's own declared total
under `max(groupAbs, groupRel · |declaredTotal|)`: a stripped total that is
empty or equals the missing-value sentinel is skipped with no divergence
and no error; a parseable total yields a divergence iff `report_all` is set
or the difference exceeds the tolerance, and an error iff the difference
exceeds the tolerance. -/
theorem validateTreeMath_group_spec (cfg : TreeCfg) :
    (∀ i pstr rest, (validateTreeMath cfg (BNode.item i pstr :: rest)).1
        = (parse_ptbr_number pstr).getD 0 + (validateTreeMath cfg rest).1)
    ∧ (∀ itn ct fs rest, (validateTreeMath cfg (BNode.group itn ct fs :: rest)).1
        = (validateTreeMath cfg fs).1 + (validateTreeMath cfg rest).1)
    ∧ (∀ itn ct fs rest, ((pyStrip ct).isEmpty = true ∨ pyStrip ct = cfg.missingTotalValue) →
        (validateTreeMath cfg (BNode.group itn ct fs :: rest)).2
          = (validateTreeMath cfg fs).2 ++ (validateTreeMath cfg rest).2)
    ∧ (∀ itn ct fs rest v,
        ¬((pyStrip ct).isEmpty = true ∨ pyStrip ct = cfg.missingTotalValue) →
        parse_ptbr_number (pyStrip ct) = some v →
        (validateTreeMath cfg (BNode.group itn ct fs :: rest)).2
          = (validateTreeMath cfg fs).2
            ++ ((if cfg.reportAll = true ∨
                  max cfg.tolAbs (cfg.tolRel * |v|) < |(validateTreeMath cfg fs).1 - v| then
                  [TreeMsg.divergenciaGrupo itn (pyStrip ct) (validateTreeMath cfg fs).1
                    ((validateTreeMath cfg fs).1 - v) (max cfg.tolAbs (cfg.tolRel * |v|))]
                 else [])
              ++ (if max cfg.tolAbs (cfg.tolRel * |v|) < |(validateTreeMath cfg fs).1 - v| then
                  [TreeMsg.erroGrupo itn (validateTreeMath cfg fs).1 v
                    (max cfg.tolAbs (cfg.tolRel * |v|))]
                 else []))
            ++ (validateTreeMath cfg rest).2) := by
  refine ⟨?_, ?_, ?_, ?_⟩
  · intro i pstr rest
    rcases hr : validateTreeMath cfg rest with ⟨rs, rm⟩
    simp only [validateTreeMath, hr, qadd_eq]
  · intro itn ct fs rest
    rcases hf : validateTreeMath cfg fs with ⟨cs, cm⟩
    rcases hr : validateTreeMath cfg rest with ⟨rs, rm⟩
    simp only [validateTreeMath, hf, hr, qadd_eq]
  · intro itn ct fs rest h
    rcases hf : validateTreeMath cfg fs with ⟨cs, cm⟩
    rcases hr : validateTreeMath cfg rest with ⟨rs, rm⟩
    have hcond : ((pyStrip ct).isEmpty || decide (pyStrip ct = cfg.missingTotalValue)) = true := by
      rcases h with h | h
      · simp [h]
      · simp [h]
    simp only [validateTreeMath, hf, hr, hcond, if_true, List.append_nil]
  · intro itn ct fs rest v hne hv
    rcases hf : validateTreeMath cfg fs with ⟨cs, cm⟩
    rcases hr : validateTreeMath cfg rest with ⟨rs, rm⟩
    rw [not_or] at hne
    have hcond : ((pyStrip ct).isEmpty || decide (pyStrip ct = cfg.missingTotalValue)) = false := by
      simp [hne.1, hne.2]
    simp only [validateTreeMath, hf, hr, hcond, Bool.false_eq_true, if_false, hv,
      qmax_eq, qmul_eq, qabs_eq, qsub_eq]
    rw [mul_comm (|v|) cfg.tolRel]
    by_cases hra : cfg.reportAll = true <;>
      by_cases htol : max cfg.tolAbs (cfg.tolRel * |v|) < |cs - v| <;>
        simp [hra, htol]

/-- Witness for C8 on the spec's example: group `9` declaring `12345,67`
with one child item contributing `12000,00` is beyond the default group
tolerance. -/
theorem validateTreeMath_group_spec_witness :
    ¬((pyStrip (str "12345,67")).isEmpty = true
        ∨ pyStrip (str "12345,67") = (TreeCfg.mk (mkRat 5 100) (mkRat 1 10000) [] false).missingTotalValue)
    ∧ parse_ptbr_number (pyStrip (str "12345,67")) = some (mkRat 1234567 100)
    ∧ (validateTreeMath (TreeCfg.mk (mkRat 5 100) (mkRat 1 10000) [] false)
        (BNode.group (str "9") (str "12345,67")
          [BNode.item (str "9.1") (str "12000,00")] :: [])).2
      = (validateTreeMath (TreeCfg.mk (mkRat 5 100) (mkRat 1 10000) [] false)
          [BNode.item (str "9.1") (str "12000,00")]).2
        ++ ((if (TreeCfg.mk (mkRat 5 100) (mkRat 1 10000) [] false).reportAll = true ∨
              max (mkRat 5 100) ((mkRat 1 10000) * |(mkRat 1234567 100 : ℚ)|)
                < |(validateTreeMath (TreeCfg.mk (mkRat 5 100) (mkRat 1 10000) [] false)
                    [BNode.item (str "9.1") (str "12000,00")]).1 - mkRat 1234567 100| then
              [TreeMsg.divergenciaGrupo (str "9") (pyStrip (str "12345,67"))
                (validateTreeMath (TreeCfg.mk (mkRat 5 100) (mkRat 1 10000) [] false)
                  [BNode.item (str "9.1") (str "12000,00")]).1
                ((validateTreeMath (TreeCfg.mk (mkRat 5 100) (mkRat 1 10000) [] false)
                  [BNode.item (str "9.1") (str "12000,00")]).1 - mkRat 1234567 100)
                (max (mkRat 5 100) ((mkRat 1 10000) * |(mkRat 1234567 100 : ℚ)|))]
             else [])
          ++ (if max (mkRat 5 100) ((mkRat 1 10000) * |(mkRat 1234567 100 : ℚ)|)
                < |(validateTreeMath (TreeCfg.mk (mkRat 5 100) (mkRat 1 10000) [] false)
                    [BNode.item (str "9.1") (str "12000,00")]).1 - mkRat 1234567 100| then
              [TreeMsg.erroGrupo (str "9")
                (validateTreeMath (TreeCfg.mk (mkRat 5 100) (mkRat 1 10000) [] false)
                  [BNode.item (str "9.1") (str "12000,00")]).1
                (mkRat 1234567 100)
                (max (mkRat 5 100) ((mkRat 1 10000) * |(mkRat 1234567 100 : ℚ)|))]
             else []))
        ++ (validateTreeMath (TreeCfg.mk (mkRat 5 100) (mkRat 1 10000) [] false) ([] : List BNode)).2 := by
  refine ⟨by decide, by decide, ?_⟩
  exact (validateTreeMath_group_spec (TreeCfg.mk (mkRat 5 100) (mkRat 1 10000) [] false)).2.2.2
    (str "9") (str "12345,67") [BNode.item (str "9.1") (str "12000,00")] [] (mkRat 1234567 100)
    (by decide) (by decide)

theorem aliasStep_preserve (principais : List (Str × Bloco)) (al : List (Str × Str))
    (kv : Str × Linha) (k : Str) (h : kv.1 ≠ k) :
    dlookup (aliasStep principais al kv) k = dlookup al k := by
  rw [aliasStep]
  by_cases hp : (dlookup principais kv.1).isSome = true
  · rw [if_pos hp]
  · rw [if_neg hp]
    rcases hc : chooseBestPrefixCand kv.2.codigo
        (((dlookup (principaisByBank principais) (normBank kv.2.banco)).getD []).filter
          fun pc => prefixMatch pc kv.2.codigo 1 5) with _ | best
    · simp only [hc]
    · simp only [hc]
      exact dlookup_dinsert_ne _ _ _ _ (Ne.symm h)

theorem foldl_aliasStep_preserve (principais : List (Str × Bloco))
    (auxs : List (Str × Linha)) (al : List (Str × Str)) (k : Str)
    (h : ∀ kv ∈ auxs, kv.1 ≠ k) :
    dlookup (auxs.foldl (aliasStep principais) al) k = dlookup al k := by
  induction auxs generalizing al with
  | nil => rfl
  | cons kv rest ih =>
    rw [List.foldl_cons, ih _ fun x hx => h x (List.mem_cons_of_mem _ hx),
      aliasStep_preserve _ _ _ _ (h kv (List.mem_cons_self _ _))]

theorem buildAliases_go (principais : List (Str × Bloco)) (auxs : List (Str × Linha))
    (al : List (Str × Str)) (auxId : Str) (aux : Linha) (best : Str)
    (hnd : (auxs.map Prod.fst).Nodup)
    (hmem : (auxId, aux) ∈ auxs)
    (hnotp : dlookup principais auxId = none)
    (hbest : chooseBestPrefixCand aux.codigo
        (((dlookup (principaisByBank principais) (normBank aux.banco)).getD []).filter
          fun pc => prefixMatch pc aux.codigo 1 5) = some best) :
    dlookup (auxs.foldl (aliasStep principais) al) auxId = some (best ++ '|' :: aux.banco) := by
  induction auxs generalizing al with
  | nil => cases hmem
  | cons kv rest ih =>
    rcases List.mem_cons.1 hmem with heq | hmem2
    · subst heq
      have hkeys : ∀ x ∈ rest, x.1 ≠ auxId := by
        intro x hx hxeq
        have hmm : x.1 ∈ List.map Prod.fst rest := List.mem_map_of_mem Prod.fst hx
        rw [hxeq] at hmm
        exact (List.nodup_cons.1 hnd).1 hmm
      rw [List.foldl_cons, foldl_aliasStep_preserve _ _ _ _ hkeys]
      simp only [aliasStep, hnotp, Option.isSome_none, Bool.false_eq_true, if_false, hbest]
      exact dlookup_dinsert_self _ _ _
    · rw [List.foldl_cons]
      exact ih _ (List.nodup_cons.1 hnd).2 hmem2

/-- C7: after the page range is exhausted, every orphan auxiliary — an
entry of `auxiliares_globais` whose key is not itself a principal key — for
which the tight prefix match (length difference ≤ 1, minimum comparable
length 5) against the same-bank principal codes yields an unambiguous best
candidate receives the alias `auxiliaryAliases[orphanKey] =
"{bestPrincipalCode}|{aux.banco}"`. -/
theorem buildAliases_orphan_spec (principais : List (Str × Bloco))
    (auxiliares : List (Str × Linha)) (auxId : Str) (aux : Linha) (best : Str)
    (hnd : (auxiliares.map Prod.fst).Nodup)
    (hmem : (auxId, aux) ∈ auxiliares)
    (hnotp : dlookup principais auxId = none)
    (hbest : chooseBestPrefixCand aux.codigo
        (((dlookup (principaisByBank principais) (normBank aux.banco)).getD []).filter
          fun pc => prefixMatch pc aux.codigo 1 5) = some best) :
    dlookup (buildAliases principais auxiliares) auxId = some (best ++ '|' :: aux.banco) :=
  buildAliases_go principais auxiliares [] auxId aux best hnd hmem hnotp hbest

/-- Witness for C7 on the spec's example: orphan auxiliary `883164|SINAPI`
with known same-bank principal `88316` is aliased to `88316|SINAPI`. -/
theorem buildAliases_orphan_spec_witness :
    ((([(str "883164|SINAPI",
        Linha.mk (str "883164") (str "SINAPI") [] [] [] none none none [])] :
          List (Str × Linha)).map Prod.fst).Nodup
      ∧ (str "883164|SINAPI",
          Linha.mk (str "883164") (str "SINAPI") [] [] [] none none none []) ∈
          [(str "883164|SINAPI",
            Linha.mk (str "883164") (str "SINAPI") [] [] [] none none none [])]
      ∧ dlookup [(str "88316|SINAPI",
          Bloco.mk (str "9.4")
            (Linha.mk (str "88316") (str "SINAPI") [] [] [] none none none []) [] [])]
          (str "883164|SINAPI") = none
      ∧ chooseBestPrefixCand (str "883164")
          (((dlookup (principaisByBank
              [(str "88316|SINAPI",
                Bloco.mk (str "9.4")
                  (Linha.mk (str "88316") (str "SINAPI") [] [] [] none none none []) [] [])])
              (normBank (str "SINAPI"))).getD []).filter
            fun pc => prefixMatch pc (str "883164") 1 5) = some (str "88316"))
    ∧ dlookup (buildAliases
        [(str "88316|SINAPI",
          Bloco.mk (str "9.4")
            (Linha.mk (str "88316") (str "SINAPI") [] [] [] none none none []) [] [])]
        [(str "883164|SINAPI",
          Linha.mk (str "883164") (str "SINAPI") [] [] [] none none none [])])
        (str "883164|SINAPI")
      = some (str "88316" ++ '|' :: str "SINAPI") :=
  ⟨⟨by decide, by decide, by decide, by decide⟩,
   buildAliases_orphan_spec
     [(str "88316|SINAPI",
       Bloco.mk (str "9.4")
         (Linha.mk (str "88316") (str "SINAPI") [] [] [] none none none []) [] [])]
     [(str "883164|SINAPI",
       Linha.mk (str "883164") (str "SINAPI") [] [] [] none none none [])]
     (str "883164|SINAPI")
     (Linha.mk (str "883164") (str "SINAPI") [] [] [] none none none [])
     (str "88316") (by decide) (by decide) (by decide) (by decide)⟩

theorem dropWhile_eq_self_of {p : Char → Bool} {l : Str} (h : ∀ c ∈ l, p c = false) :
    l.dropWhile p = l := by
  cases l with
  | nil => rfl
  | cons c t =>
    rw [List.dropWhile_cons, if_neg]
    rw [h c (List.mem_cons_self _ _)]
    exact Bool.false_ne_true

theorem pyStrip_eq_self {s : Str} (h : ∀ c ∈ s, isPySpace c = false) : pyStrip s = s := by
  rw [pyStrip, pyStripLeft, dropWhile_eq_self_of h, pyStripRight,
    dropWhile_eq_self_of fun c hc => h c (List.mem_reverse.1 hc), List.reverse_reverse]

theorem map_eq_self {f : Char → Char} {s : Str} (h : ∀ c ∈ s, f c = c) : s.map f = s := by
  induction s with
  | nil => rfl
  | cons c t ih =>
    rw [List.map_cons, h c (List.mem_cons_self _ _),
      ih fun x hx => h x (List.mem_cons_of_mem _ hx)]

theorem collapseRuns1Go_eq_self {s : Str} (h : ∀ c ∈ s, isPySpace c = false) :
    collapseRuns1Go false s = s := by
  induction s with
  | nil => rfl
  | cons c t ih =>
    rw [collapseRuns1Go, if_neg (by rw [h c (List.mem_cons_self _ _)]; exact Bool.false_ne_true),
      ih fun x hx => h x (List.mem_cons_of_mem _ hx)]

theorem colapsar_eq_self {s : Str} (h : ∀ c ∈ s, isPySpace c = false) : colapsar s = s := by
  have hmap : (s.map fun c => if c = Char.ofNat 10 then ' ' else c) = s := by
    refine map_eq_self fun c hc => ?_
    rw [if_neg]
    intro hceq
    rw [hceq] at hc
    have := h _ hc
    exact absurd this (by decide)
  rw [colapsar, hmap, collapseRuns1, collapseRuns1Go_eq_self h, pyStrip_eq_self h]

theorem replaceSubGo_eq_self {p0 : Char} {ps repl : Str} (fuel : Nat) {s : Str}
    (h : ∀ c ∈ s, c ≠ p0) : replaceSubGo (p0 :: ps) repl fuel s = s := by
  induction fuel generalizing s with
  | zero => cases s <;> rfl
  | succ fuel ih =>
    cases s with
    | nil => rfl
    | cons c t =>
      have hpre : (p0 :: ps).isPrefixOf (c :: t) = false := by
        show (p0 == c && ps.isPrefixOf t) = false
        rw [beq_eq_false_iff_ne.2 (Ne.symm (h c (List.mem_cons_self _ _)))]
        rfl
      rw [replaceSubGo, if_neg (by rw [hpre]; simp)]
      rw [ih fun x hx => h x (List.mem_cons_of_mem _ hx)]

theorem removeChar_eq_self {ch : Char} {s : Str} (h : ∀ c ∈ s, c ≠ ch) :
    removeChar ch s = s := by
  induction s with
  | nil => rfl
  | cons c t ih =>
    rw [removeChar, List.filter_cons]
    rw [if_pos (by simpa using h c (List.mem_cons_self _ _))]
    rw [show List.filter (fun x => x ≠ ch) t = removeChar ch t from rfl,
      ih fun x hx => h x (List.mem_cons_of_mem _ hx)]

theorem takeWhile_append_all {p : Char → Bool} {ds : Str} (r : Str)
    (h : ∀ c ∈ ds, p c = true) : (ds ++ r).takeWhile p = ds ++ r.takeWhile p := by
  induction ds with
  | nil => rfl
  | cons c t ih =>
    rw [List.cons_append, List.takeWhile_cons, if_pos (h c (List.mem_cons_self _ _)),
      ih fun x hx => h x (List.mem_cons_of_mem _ hx), List.cons_append]

theorem dropWhile_append_all {p : Char → Bool} {ds : Str} (r : Str)
    (h : ∀ c ∈ ds, p c = true) : (ds ++ r).dropWhile p = r.dropWhile p := by
  induction ds with
  | nil => rfl
  | cons c t ih =>
    rw [List.cons_append, List.dropWhile_cons, if_pos (h c (List.mem_cons_self _ _)),
      ih fun x hx => h x (List.mem_cons_of_mem _ hx)]

theorem digit_char_facts {c : Char} (h : isDigitC c = true) :
    isPySpace c = false ∧ c ≠ '-' ∧ c ≠ '+' ∧ c ≠ ',' ∧ c ≠ '.' ∧ c ≠ 'R' ∧
      c ≠ Char.ofNat 10 := by
  refine ⟨?_, ?_, ?_, ?_, ?_, ?_, ?_⟩
  · rcases hsp : isPySpace c with _ | _
    · rfl
    · exfalso
      simp only [isPySpace, Bool.or_eq_true, decide_eq_true_eq] at hsp
      rcases hsp with (((((h1 | h1) | h1) | h1) | h1) | h1) | h1 <;>
        (rw [h1] at h; exact absurd h (by decide))
  all_goals
    intro hc
    rw [hc] at h
    exact absurd h (by decide)

theorem takeWhile_all {p : Char → Bool} {l : Str} (h : ∀ c ∈ l, p c = true) :
    l.takeWhile p = l := by
  induction l with
  | nil => rfl
  | cons c t ih =>
    rw [List.takeWhile_cons, if_pos (h c (List.mem_cons_self _ _)),
      ih fun x hx => h x (List.mem_cons_of_mem _ hx)]

theorem dropWhile_all {p : Char → Bool} {l : Str} (h : ∀ c ∈ l, p c = true) :
    l.dropWhile p = [] := by
  induction l with
  | nil => rfl
  | cons c t ih =>
    rw [List.dropWhile_cons, if_pos (h c (List.mem_cons_self _ _)),
      ih fun x hx => h x (List.mem_cons_of_mem _ hx)]

theorem stripMinus_cons_ne {c : Char} (t : Str) (h : c ≠ '-') :
    stripMinus (c :: t) = c :: t := by
  rw [stripMinus]
  intro t1 heq
  injection heq with hh
  exact h hh

theorem splitSign_cons_ne {c : Char} (t : Str) (h1 : c ≠ '-') (h2 : c ≠ '+') :
    splitSign (c :: t) = (false, c :: t) := by
  rw [splitSign]
  · intro t1 heq
    injection heq with hh
    exact h1 hh
  · intro t1 heq
    injection heq with hh
    exact h2 hh

/-- The language `-?\d+(,\d+)?`: an optional minus sign, a non-empty digit
run, optionally a decimal comma followed by a non-empty digit run. -/
def isPlainComma (s : Str) : Prop :=
  ∃ (neg : Bool) (ds tail : Str),
    ds ≠ [] ∧ (∀ c ∈ ds, isDigitC c = true) ∧
    (tail = [] ∨ ∃ f, f ≠ [] ∧ (∀ c ∈ f, isDigitC c = true) ∧ tail = ',' :: f) ∧
    s = (if neg then ['-'] else []) ++ ds ++ tail


theorem digit_not_space {c : Char} (h : isDigitC c = true) : isPySpace c = false :=
  (digit_char_facts h).1

theorem pyFloat_isSome_of (neg : Bool) (ds tailD : Str) (hne : ds ≠ [])
    (hdig : ∀ c ∈ ds, isDigitC c = true)
    (htail : tailD = [] ∨ ∃ f, (∀ c ∈ f, isDigitC c = true) ∧ tailD = '.' :: f) :
    (pyFloat ((if neg then ['-'] else []) ++ ds ++ tailD)).isSome = true := by
  rcases ds with _ | ⟨d, ds'⟩
  · exact absurd rfl hne
  have htailF : ∀ c ∈ tailD, isPySpace c = false := by
    rcases htail with rfl | ⟨f, hf, rfl⟩
    · intro c hc
      cases hc
    · intro c hc
      rcases List.mem_cons.1 hc with rfl | hcf
      · decide
      · exact digit_not_space (hf c hcf)
  have hfs : ∀ c ∈ (if neg then ['-'] else ([] : Str)) ++ (d :: ds') ++ tailD,
      isPySpace c = false := by
    intro c hc
    rcases List.mem_append.1 hc with h01 | ht
    · rcases List.mem_append.1 h01 with h0 | hd
      · cases neg with
        | false => cases h0
        | true =>
          rcases List.mem_cons.1 h0 with rfl | habs
          · decide
          · cases habs
      · exact digit_not_space (hdig c hd)
    · exact htailF c ht
  have hss : splitSign ((if neg then ['-'] else ([] : Str)) ++ (d :: ds') ++ tailD)
      = (neg, (d :: ds') ++ tailD) := by
    cases neg with
    | true => rfl
    | false =>
      show splitSign ([] ++ (d :: ds') ++ tailD) = _
      rw [List.nil_append, List.cons_append]
      exact splitSign_cons_ne _ (digit_char_facts (hdig d (List.mem_cons_self _ _))).2.1
        (digit_char_facts (hdig d (List.mem_cons_self _ _))).2.2.1
  have htake : ((d :: ds') ++ tailD).takeWhile isDigitC = d :: ds' := by
    rw [takeWhile_append_all _ hdig]
    rcases htail with rfl | ⟨f, hf, rfl⟩
    · rw [List.takeWhile_nil, List.append_nil]
    · rw [List.takeWhile_cons, if_neg (by decide), List.append_nil]
  have hdrop : ((d :: ds') ++ tailD).dropWhile isDigitC = tailD := by
    rw [dropWhile_append_all _ hdig]
    rcases htail with rfl | ⟨f, hf, rfl⟩
    · rw [List.dropWhile_nil]
    · rw [List.dropWhile_cons, if_neg (by decide)]
  have happ : (if neg then ['-'] else ([] : Str)) ++ (d :: ds') ++ tailD
      = pyStrip ((if neg then ['-'] else ([] : Str)) ++ (d :: ds') ++ tailD) :=
    (pyStrip_eq_self hfs).symm
  rw [pyFloat, ← happ, hss]
  simp only [htake, hdrop]
  rcases htail with rfl | ⟨f, hf, rfl⟩
  · rw [show splitDot [] = (([] : Str), ([] : Str)) from rfl]
    simp [readExp]
  · rw [show splitDot ('.' :: f) = (f.takeWhile isDigitC, f.dropWhile isDigitC) from rfl,
      takeWhile_all hf, dropWhile_all hf]
    simp [readExp]

theorem matchPtbrAlt2_true (neg : Bool) (ds tail : Str) (hne : ds ≠ [])
    (hdig : ∀ c ∈ ds, isDigitC c = true)
    (htail : tail = [] ∨ ∃ f, f ≠ [] ∧ (∀ c ∈ f, isDigitC c = true) ∧ tail = ',' :: f) :
    matchPtbrAlt2 ((if neg then ['-'] else []) ++ ds ++ tail) = true := by
  rcases ds with _ | ⟨d, ds'⟩
  · exact absurd rfl hne
  have hsm : stripMinus ((if neg then ['-'] else ([] : Str)) ++ (d :: ds') ++ tail)
      = (d :: ds') ++ tail := by
    cases neg with
    | true => rfl
    | false =>
      show stripMinus ([] ++ (d :: ds') ++ tail) = _
      rw [List.nil_append, List.cons_append]
      exact stripMinus_cons_ne _ (digit_char_facts (hdig d (List.mem_cons_self _ _))).2.1
  have htake : ((d :: ds') ++ tail).takeWhile isDigitC = d :: ds' := by
    rw [takeWhile_append_all _ hdig]
    rcases htail with rfl | ⟨f, _, hf, rfl⟩
    · rw [List.takeWhile_nil, List.append_nil]
    · rw [List.takeWhile_cons, if_neg (by decide), List.append_nil]
  have hdrop : ((d :: ds') ++ tail).dropWhile isDigitC = tail := by
    rw [dropWhile_append_all _ hdig]
    rcases htail with rfl | ⟨f, _, hf, rfl⟩
    · rw [List.dropWhile_nil]
    · rw [List.dropWhile_cons, if_neg (by decide)]
  rw [matchPtbrAlt2, hsm]
  simp only [htake, hdrop]
  rcases htail with rfl | ⟨f, hf1, hf2, rfl⟩
  · rfl
  · rcases f with _ | ⟨f0, f'⟩
    · exact absurd rfl hf1
    · simp only [List.isEmpty_cons, Bool.not_false, Bool.true_and, Bool.false_or]
      rw [List.all_eq_true.2 hf2]

/-- C5 (amended): the budget pass's `parse_ptbr_number` and the block
extractor's `parse_pt_number` are two different numeric parsers, not one
shared one: on `"1.2"` the extractor deletes the point and returns 12.0
while the budget parser returns "not a number" (its regex demands exactly
three digits after a thousands point).  On every plain comma-decimal
string `-?\d+(,\d+)?` the two agree and both return a value — neither ever
raises. -/
theorem numericParsers_spec :
    (parse_pt_number (str "1.2") = some (mkRat 12 1)
      ∧ parse_ptbr_number (str "1.2") = none)
    ∧ ∀ s : Str, isPlainComma s →
        parse_pt_number s = parse_ptbr_number s ∧ (parse_ptbr_number s).isSome = true := by
  refine ⟨⟨by decide, by decide⟩, ?_⟩
  rintro s ⟨neg, ds, tail, hne, hdig, htail, rfl⟩
  have hdigF : ∀ {c : Char}, isDigitC c = true →
      isPySpace c = false ∧ c ≠ 'R' ∧ c ≠ '.' ∧ c ≠ ' ' := by
    intro c h
    obtain ⟨a, _, _, _, hdot, hR, _⟩ := digit_char_facts h
    refine ⟨a, hR, hdot, ?_⟩
    intro hsp
    rw [hsp] at a
    exact absurd a (by decide)
  have hfullP : ∀ c ∈ (if neg then ['-'] else ([] : Str)) ++ ds ++ tail,
      isPySpace c = false ∧ c ≠ 'R' ∧ c ≠ '.' ∧ c ≠ ' ' := by
    intro c hc
    rcases List.mem_append.1 hc with h01 | ht
    · rcases List.mem_append.1 h01 with h0 | hd
      · cases neg with
        | false => cases h0
        | true =>
          rcases List.mem_cons.1 h0 with rfl | habs
          · exact ⟨by decide, by decide, by decide, by decide⟩
          · cases habs
      · exact hdigF (hdig c hd)
    · rcases htail with rfl | ⟨f, hf1, hf2, rfl⟩
      · cases ht
      · rcases List.mem_cons.1 ht with rfl | hcf
        · exact ⟨by decide, by decide, by decide, by decide⟩
        · exact hdigF (hf2 c hcf)
  have hfs : ∀ c ∈ (if neg then ['-'] else ([] : Str)) ++ ds ++ tail, isPySpace c = false :=
    fun c hc => (hfullP c hc).1
  have hpre : removeChar ' '
      (replaceSub (pyStrip ((if neg then ['-'] else ([] : Str)) ++ ds ++ tail)) (str "R$") [])
      = (if neg then ['-'] else ([] : Str)) ++ ds ++ tail := by
    rw [pyStrip_eq_self hfs]
    show removeChar ' ' (replaceSubGo ('R' :: ['$']) [] _ _) = _
    rw [replaceSubGo_eq_self _ fun c hc => (hfullP c hc).2.1,
      removeChar_eq_self fun c hc => (hfullP c hc).2.2.2]
  have hisE : ((if neg then ['-'] else ([] : Str)) ++ ds ++ tail).isEmpty = false := by
    rcases hfl : (if neg then ['-'] else ([] : Str)) ++ ds ++ tail with _ | ⟨c, t⟩
    · exfalso
      rcases List.append_eq_nil.1 hfl with ⟨h1, _⟩
      exact hne (List.append_eq_nil.1 h1).2
    · rfl
  have hmatch : matchPtbr ((if neg then ['-'] else ([] : Str)) ++ ds ++ tail) = true := by
    rw [matchPtbr, matchPtbrAlt2_true neg ds tail hne hdig htail, Bool.or_true]
  have h1 : parse_ptbr_number ((if neg then ['-'] else ([] : Str)) ++ ds ++ tail)
      = pyFloat ((removeChar '.' ((if neg then ['-'] else ([] : Str)) ++ ds ++ tail)).map
          fun c => if c = ',' then '.' else c) := by
    simp only [parse_ptbr_number, hpre, hisE, hmatch]
    rfl
  have h2 : parse_pt_number ((if neg then ['-'] else ([] : Str)) ++ ds ++ tail)
      = pyFloat ((removeChar '.' ((if neg then ['-'] else ([] : Str)) ++ ds ++ tail)).map
          fun c => if c = ',' then '.' else c) := by
    simp only [parse_pt_number, colapsar_eq_self hfs, hisE]
    rfl
  refine ⟨h2.trans h1.symm, ?_⟩
  rw [h1, removeChar_eq_self fun c hc => (hfullP c hc).2.2.1]
  have hmapsign : ((if neg then ['-'] else ([] : Str)).map fun c => if c = ',' then '.' else c)
      = (if neg then ['-'] else ([] : Str)) := by
    cases neg <;> rfl
  have hmapds : (ds.map fun c => if c = ',' then '.' else c) = ds :=
    map_eq_self fun c hc => if_neg (digit_char_facts (hdig c hc)).2.2.2.1
  rcases htail with rfl | ⟨f, hf1, hf2, rfl⟩
  · rw [List.map_append, List.map_append, hmapsign, hmapds]
    rw [show (([] : Str).map fun c => if c = ',' then '.' else c) = ([] : Str) from rfl]
    exact pyFloat_isSome_of neg ds [] hne hdig (Or.inl rfl)
  · rw [List.map_append, List.map_append, hmapsign, hmapds]
    rw [List.map_cons, if_pos rfl,
      map_eq_self fun c hc => if_neg (digit_char_facts (hf2 c hc)).2.2.2.1]
    exact pyFloat_isSome_of neg ds ('.' :: f) hne hdig (Or.inr ⟨f, hf2, rfl⟩)

/-- Witness for C5 on the string `"55,00"`. -/
theorem numericParsers_spec_witness :
    isPlainComma (str "55,00")
    ∧ parse_pt_number (str "55,00") = parse_ptbr_number (str "55,00")
    ∧ (parse_ptbr_number (str "55,00")).isSome = true := by
  have hplain : isPlainComma (str "55,00") :=
    ⟨false, ['5', '5'], [',', '0', '0'], by decide, by decide,
     Or.inr ⟨['0', '0'], by decide, by decide, rfl⟩, by decide⟩
  exact ⟨hplain, (numericParsers_spec.2 (str "55,00") hplain).1,
    (numericParsers_spec.2 (str "55,00") hplain).2⟩

theorem char_toNat_inj {a b : Char} (h : a.toNat = b.toNat) : a = b := by
  have ha := Char.ofNat_toNat a
  rw [h, Char.ofNat_toNat b] at ha
  exact ha.symm

theorem strLtB_trans : ∀ a b c : Str, strLtB a b = true → strLtB b c = true →
    strLtB a c = true := by
  intro a
  induction a with
  | nil =>
    intro b c h1 h2
    cases b with
    | nil => cases h1
    | cons y ys =>
      cases c with
      | nil => cases h2
      | cons z zs => rfl
  | cons x xs ih =>
    intro b c h1 h2
    cases b with
    | nil => cases h1
    | cons y ys =>
      cases c with
      | nil => cases h2
      | cons z zs =>
        rw [strLtB] at h1 h2 ⊢
        by_cases hxy : x = y
        · rw [if_pos hxy] at h1
          by_cases hyz : y = z
          · rw [if_pos hyz] at h2
            rw [if_pos (hxy.trans hyz)]
            exact ih _ _ h1 h2
          · rw [if_neg hyz] at h2
            rw [if_neg (hxy ▸ hyz), hxy]
            exact h2
        · rw [if_neg hxy] at h1
          by_cases hyz : y = z
          · rw [if_neg (by rw [← hyz]; exact hxy), ← hyz]
            exact h1
          · rw [if_neg hyz] at h2
            have l1 := of_decide_eq_true h1
            have l2 := of_decide_eq_true h2
            by_cases hxz : x = z
            · exfalso
              rw [hxz] at l1
              omega
            · rw [if_neg hxz]
              exact decide_eq_true (Nat.lt_trans l1 l2)

theorem strLtB_trichot : ∀ a b : Str, strLtB a b = true ∨ strLtB b a = true ∨ a = b := by
  intro a
  induction a with
  | nil =>
    intro b
    cases b with
    | nil => exact Or.inr (Or.inr rfl)
    | cons y ys => exact Or.inl rfl
  | cons x xs ih =>
    intro b
    cases b with
    | nil => exact Or.inr (Or.inl rfl)
    | cons y ys =>
      by_cases hxy : x = y
      · rcases ih ys with h | h | h
        · exact Or.inl (by rw [strLtB, if_pos hxy]; exact h)
        · exact Or.inr (Or.inl (by rw [strLtB, if_pos hxy.symm]; exact h))
        · exact Or.inr (Or.inr (by rw [hxy, h]))
      · rcases Nat.lt_trichotomy x.toNat y.toNat with h | h | h
        · exact Or.inl (by rw [strLtB, if_neg hxy]; exact decide_eq_true h)
        · exact absurd (char_toNat_inj h) hxy
        · refine Or.inr (Or.inl ?_)
          rw [strLtB, if_neg fun e => hxy e.symm]
          exact decide_eq_true h

theorem strLeB_trans {a b c : Str} (h1 : strLeB a b = true) (h2 : strLeB b c = true) :
    strLeB a c = true := by
  rw [strLeB, Bool.or_eq_true, decide_eq_true_eq] at h1 h2 ⊢
  rcases h1 with h1 | rfl
  · rcases h2 with h2 | rfl
    · exact Or.inl (strLtB_trans _ _ _ h1 h2)
    · exact Or.inl h1
  · exact h2

theorem strLeB_total (a b : Str) : strLeB a b = true ∨ strLeB b a = true := by
  rcases strLtB_trichot a b with h | h | rfl
  · exact Or.inl (by rw [strLeB, h]; rfl)
  · exact Or.inr (by rw [strLeB, h]; rfl)
  · exact Or.inl (by rw [strLeB]; simp)

theorem pairLtB_iff (p q : Nat × Int) :
    pairLtB p q = true ↔ (p.1 < q.1 ∨ (p.1 = q.1 ∧ p.2 < q.2)) := by
  rw [pairLtB]
  simp [Bool.or_eq_true, Bool.and_eq_true, decide_eq_true_eq]

/-- Non-strict order on score pairs. -/
def pairLeP (p q : Nat × Int) : Prop := p = q ∨ pairLtB p q = true

theorem pairLeP_antisymm {p q : Nat × Int} (h1 : pairLeP p q) (h2 : pairLeP q p) : p = q := by
  rcases h1 with rfl | h1
  · rfl
  · rcases h2 with rfl | h2
    · rfl
    · rw [pairLtB_iff] at h1 h2
      obtain ⟨p1, p2⟩ := p
      obtain ⟨q1, q2⟩ := q
      simp only [Prod.mk.injEq]
      constructor <;> omega

theorem tripLeB_pairLeP {x y : (Nat × Int) × Str} (h : tripLeB x y = true) :
    pairLeP x.1 y.1 := by
  rw [tripLeB, Bool.or_eq_true, Bool.and_eq_true, decide_eq_true_eq] at h
  rcases h with h | ⟨h, _⟩
  · exact Or.inr h
  · exact Or.inl h

instance tripLeTotal : IsTotal ((Nat × Int) × Str)
    (fun x y : (Nat × Int) × Str => tripLeB x y = true) := by
  constructor
  intro x y
  obtain ⟨p, s⟩ := x
  obtain ⟨q, t⟩ := y
  by_cases hpq : p = q
  · subst hpq
    rcases strLeB_total s t with h | h
    · exact Or.inl (by rw [tripLeB]; simp [h])
    · exact Or.inr (by rw [tripLeB]; simp [h])
  · obtain ⟨p1, p2⟩ := p
    obtain ⟨q1, q2⟩ := q
    have : pairLtB (p1, p2) (q1, q2) = true ∨ pairLtB (q1, q2) (p1, p2) = true := by
      rw [pairLtB_iff, pairLtB_iff]
      simp only [Prod.mk.injEq, not_and] at hpq
      rcases Nat.lt_trichotomy p1 q1 with h | h | h
      · exact Or.inl (Or.inl h)
      · subst h
        rcases Int.lt_trichotomy p2 q2 with h2 | h2 | h2
        · exact Or.inl (Or.inr ⟨rfl, h2⟩)
        · exact absurd (hpq rfl h2) not_false
        · exact Or.inr (Or.inr ⟨rfl, h2⟩)
      · exact Or.inr (Or.inl h)
    rcases this with h | h
    · exact Or.inl (by rw [tripLeB]; simp [h])
    · exact Or.inr (by rw [tripLeB]; simp [h])

instance tripLeTrans : IsTrans ((Nat × Int) × Str)
    (fun x y : (Nat × Int) × Str => tripLeB x y = true) := by
  constructor
  intro x y z h1 h2
  simp only [tripLeB, Bool.or_eq_true, Bool.and_eq_true, decide_eq_true_eq] at h1 h2 ⊢
  rcases h1 with h1 | ⟨he1, hs1⟩
  · rcases h2 with h2 | ⟨he2, hs2⟩
    · refine Or.inl ?_
      rw [pairLtB_iff] at h1 h2 ⊢
      obtain ⟨⟨a1, a2⟩, _⟩ := x
      obtain ⟨⟨b1, b2⟩, _⟩ := y
      obtain ⟨⟨c1, c2⟩, _⟩ := z
      simp only [Prod.mk.injEq] at h1 h2 ⊢
      omega
    · exact Or.inl (he2 ▸ h1)
  · rcases h2 with h2 | ⟨he2, hs2⟩
    · exact Or.inl (he1 ▸ h2)
    · exact Or.inr ⟨he1.trans he2, strLeB_trans hs1 hs2⟩

/-- C6: `_choose_best_prefix_candidate` returns `none` on an empty
candidate list; otherwise it normalises the codes, scores every candidate
by the pair `(size difference, −max length)` against the normalised
expected code and returns the unique candidate whose score pair is minimal
— and `none` (never an arbitrary pick) as soon as the minimal score pair
is attained by two or more candidates. -/
theorem chooseBest_spec :
    (∀ exp : Str, chooseBestPrefixCand exp [] = none)
    ∧ ∀ (exp : Str) (cands : List Str) (c : Str), c ∈ cands →
        (∀ d ∈ cands, pairLeP (pairScore (normCode exp) (normCode c))
            (pairScore (normCode exp) (normCode d))) →
        (((cands.countP fun d =>
            decide (pairScore (normCode exp) (normCode d)
              = pairScore (normCode exp) (normCode c))) = 1 →
          chooseBestPrefixCand exp cands = some c)
        ∧ (2 ≤ (cands.countP fun d =>
            decide (pairScore (normCode exp) (normCode d)
              = pairScore (normCode exp) (normCode c))) →
          chooseBestPrefixCand exp cands = none)) := by
  constructor
  · intro exp
    rfl
  · intro exp cands c hc hmin
    rcases cands with _ | ⟨c0, cs⟩
    · cases hc
    have key : ∀ L : List ((Nat × Int) × Str),
        L.Perm ((c0 :: cs).map fun d => (pairScore (normCode exp) (normCode d), d)) →
        List.Sorted (fun x y => tripLeB x y = true) L →
        (((c0 :: cs).countP fun d =>
            decide (pairScore (normCode exp) (normCode d)
              = pairScore (normCode exp) (normCode c))) = 1 →
          (match L with
            | [] => none
            | [b] => some b.2
            | b :: s :: _ => if b.1 = s.1 then none else some b.2) = some c)
        ∧ (2 ≤ ((c0 :: cs).countP fun d =>
            decide (pairScore (normCode exp) (normCode d)
              = pairScore (normCode exp) (normCode c))) →
          (match L with
            | [] => none
            | [b] => some b.2
            | b :: s :: _ => if b.1 = s.1 then none else some b.2) = none) := by
      intro L hperm hsorted
      have hcnt : L.countP (fun x => decide (x.1 = pairScore (normCode exp) (normCode c)))
          = ((c0 :: cs).countP fun d =>
              decide (pairScore (normCode exp) (normCode d)
                = pairScore (normCode exp) (normCode c))) := by
        rw [hperm.countP_eq, List.countP_map]
        rfl
      rcases L with _ | ⟨t, rest⟩
      · have hlen := hperm.length_eq
        rw [List.length_map, List.length_nil, List.length_cons] at hlen
        exact absurd hlen.symm (Nat.succ_ne_zero _)
      · have htmem : t ∈ (c0 :: cs).map fun d => (pairScore (normCode exp) (normCode d), d) :=
          hperm.mem_iff.1 (List.mem_cons_self _ _)
        obtain ⟨dt, hdt, hdteq⟩ := List.mem_map.1 htmem
        have hfc : (pairScore (normCode exp) (normCode c), c)
            ∈ (c0 :: cs).map fun d => (pairScore (normCode exp) (normCode d), d) :=
          List.mem_map_of_mem _ hc
        have hfcL : (pairScore (normCode exp) (normCode c), c) ∈ t :: rest :=
          hperm.mem_iff.2 hfc
        have hle1 : pairLeP (pairScore (normCode exp) (normCode c)) t.1 := by
          rw [← hdteq]
          exact hmin dt hdt
        have hle2 : pairLeP t.1 (pairScore (normCode exp) (normCode c)) := by
          rcases List.mem_cons.1 hfcL with heq | hmem2
          · exact Or.inl (by rw [← heq])
          · exact tripLeB_pairLeP ((List.pairwise_cons.1 hsorted).1 _ hmem2)
        have htp : t.1 = pairScore (normCode exp) (normCode c) := pairLeP_antisymm hle2 hle1
        have hPt : decide (t.1 = pairScore (normCode exp) (normCode c)) = true :=
          decide_eq_true htp
        rcases rest with _ | ⟨s2, rest2⟩
        · constructor
          · intro hcount1
            show some t.2 = some c
            rcases List.mem_cons.1 hfcL with heq | hmem2
            · rw [← heq]
            · cases hmem2
          · intro hcount2
            exfalso
            rw [List.countP_cons, List.countP_nil, hPt, if_pos rfl] at hcnt
            omega
        · have hs2mem : s2 ∈ (c0 :: cs).map fun d =>
              (pairScore (normCode exp) (normCode d), d) :=
            hperm.mem_iff.1 (List.mem_cons_of_mem _ (List.mem_cons_self _ _))
          obtain ⟨ds2, hds2, hds2eq⟩ := List.mem_map.1 hs2mem
          have hles2 : pairLeP (pairScore (normCode exp) (normCode c)) s2.1 := by
            rw [← hds2eq]
            exact hmin ds2 hds2
          constructor
          · intro hcount1
            rw [← hcnt, List.countP_cons, hPt, if_pos rfl] at hcount1
            have hc0 : (s2 :: rest2).countP (fun x : (Nat × Int) × Str =>
                decide (x.1 = pairScore (normCode exp) (normCode c))) = 0 := by omega
            have hnP := List.countP_eq_zero.1 hc0
            have hg : ¬(t.1 = s2.1) := by
              intro he
              refine hnP s2 (List.mem_cons_self _ _) ?_
              exact decide_eq_true (by rw [← he, htp])
            show (if t.1 = s2.1 then none else some t.2) = some c
            rw [if_neg hg]
            rcases List.mem_cons.1 hfcL with heq | hmem2
            · rw [← heq]
            · exact absurd (decide_eq_true rfl) (hnP _ hmem2)
          · intro hcount2
            rw [← hcnt, List.countP_cons, hPt, if_pos rfl] at hcount2
            have hpos : 0 < (s2 :: rest2).countP (fun x : (Nat × Int) × Str =>
                decide (x.1 = pairScore (normCode exp) (normCode c))) := by omega
            obtain ⟨y, hy, hPy⟩ := List.countP_pos_iff.1 hpos
            have hy1 : y.1 = pairScore (normCode exp) (normCode c) := of_decide_eq_true hPy
            have hle : pairLeP s2.1 (pairScore (normCode exp) (normCode c)) := by
              rcases List.mem_cons.1 hy with rfl | hy2
              · exact Or.inl hy1
              · have hr := (List.pairwise_cons.1 (List.pairwise_cons.1 hsorted).2).1 y hy2
                have := tripLeB_pairLeP hr
                rwa [hy1] at this
            have hs2p : s2.1 = pairScore (normCode exp) (normCode c) :=
              pairLeP_antisymm hle hles2
            show (if t.1 = s2.1 then none else some t.2) = none
            rw [if_pos (by rw [htp, hs2p])]
    refine ⟨fun h1 => ?_, fun h2 => ?_⟩
    · exact (key _ (List.perm_insertionSort _ _) (List.sorted_insertionSort _ _)).1 h1
    · exact (key _ (List.perm_insertionSort _ _) (List.sorted_insertionSort _ _)).2 h2

/-- Witness for C6 on the spec's example: `"0012345"` scores `(1, -8)`
against expected `"00012345"`, strictly better than `"1234"` at `(4, -8)`,
so it is returned. -/
theorem chooseBest_spec_witness :
    (str "0012345" ∈ [str "0012345", str "1234"]
      ∧ (∀ d ∈ [str "0012345", str "1234"],
          pairLeP (pairScore (normCode (str "00012345")) (normCode (str "0012345")))
            (pairScore (normCode (str "00012345")) (normCode d)))
      ∧ (([str "0012345", str "1234"].countP fun d =>
          decide (pairScore (normCode (str "00012345")) (normCode d)
            = pairScore (normCode (str "00012345")) (normCode (str "0012345")))) = 1))
    ∧ chooseBestPrefixCand (str "00012345") [str "0012345", str "1234"]
        = some (str "0012345") := by
  refine ⟨⟨by decide, ?_, by decide⟩, ?_⟩
  · intro d hd
    rcases List.mem_cons.1 hd with rfl | hd2
    · exact Or.inl (by decide)
    · rcases List.mem_cons.1 hd2 with rfl | hd3
      · exact Or.inr (by decide)
      · cases hd3
  · refine (chooseBest_spec.2 (str "00012345") [str "0012345", str "1234"]
      (str "0012345") (by decide) ?_).1 (by decide)
    intro d hd
    rcases List.mem_cons.1 hd with rfl | hd2
    · exact Or.inl (by decide)
    · rcases List.mem_cons.1 hd2 with rfl | hd3
      · exact Or.inr (by decide)
      · cases hd3

/-- C10: when two composition (principal) rows inside the processed range
produce the same raw identity key, the later row wins silently.  After the
first row opens a block and an auxiliary row attaches to it, the second
composition row flushes that block into `principais`; the end-of-range
flush then overwrites the same key with the freshly opened block of the
second row, so the final map holds only the later block (with the earlier
block's attached auxiliaries gone from `principais`), and neither a
warning nor an error is recorded about the collision. -/
theorem duplicate_principal_last_wins
    (ctx : RecCtx) (st : CompState) (r1 raux r2 : Row)
    (h0 : st.currentBloco = none)
    (h1e : r1.isEmpty = false)
    (h1b : (r1.all fun c =>
      match c with | none => true | some s => (colapsar (limparStr s)).isEmpty) = false)
    (h1h : isItemHeaderRow (normalizeRow r1) = false)
    (h1c : isColumnHeaderOnly (normalizeRow r1) = false)
    (h1a : containsSub (upperStr (colapsar (rowGet (normalizeRow r1) 0))) (str "ANEXO 3") = false)
    (h1d : detect_row_type (rowGet (normalizeRow r1) 0) = some .composicao)
    (h1r : recoverFullCode ctx (buildEntryFromRow (normalizeRow r1) .composicao).codigo
        (buildEntryFromRow (normalizeRow r1) .composicao).banco = none)
    (hae : raux.isEmpty = false)
    (hab : (raux.all fun c =>
      match c with | none => true | some s => (colapsar (limparStr s)).isEmpty) = false)
    (hah : isItemHeaderRow (normalizeRow raux) = false)
    (hac : isColumnHeaderOnly (normalizeRow raux) = false)
    (haa : containsSub (upperStr (colapsar (rowGet (normalizeRow raux) 0))) (str "ANEXO 3") = false)
    (had : detect_row_type (rowGet (normalizeRow raux) 0) = some .composicaoAuxiliar)
    (h2e : r2.isEmpty = false)
    (h2b : (r2.all fun c =>
      match c with | none => true | some s => (colapsar (limparStr s)).isEmpty) = false)
    (h2h : isItemHeaderRow (normalizeRow r2) = false)
    (h2c : isColumnHeaderOnly (normalizeRow r2) = false)
    (h2a : containsSub (upperStr (colapsar (rowGet (normalizeRow r2) 0))) (str "ANEXO 3") = false)
    (h2d : detect_row_type (rowGet (normalizeRow r2) 0) = some .composicao)
    (h2r : recoverFullCode ctx (buildEntryFromRow (normalizeRow r2) .composicao).codigo
        (buildEntryFromRow (normalizeRow r2) .composicao).banco = none)
    (hkey : makeId (buildEntryFromRow (normalizeRow r2) .composicao).codigo
          (buildEntryFromRow (normalizeRow r2) .composicao).banco
        = makeId (buildEntryFromRow (normalizeRow r1) .composicao).codigo
          (buildEntryFromRow (normalizeRow r1) .composicao).banco) :
    dlookup (processRows ctx st [r1, raux, r2]).principais
        (makeId (buildEntryFromRow (normalizeRow r1) .composicao).codigo
          (buildEntryFromRow (normalizeRow r1) .composicao).banco)
      = some (Bloco.mk
          (if !st.currentItem.isEmpty then st.currentItem
            else (dlookup ctx.idToItem
              (makeIdNorm (buildEntryFromRow (normalizeRow r2) .composicao).codigo
                (buildEntryFromRow (normalizeRow r2) .composicao).banco)).getD [])
          (linhaOfEntry (buildEntryFromRow (normalizeRow r2) .composicao)) [] [])
    ∧ (processRows ctx st [r1, raux, r2]).avisos = st.avisos
    ∧ (processRows ctx st [r1, raux, r2]).erros = st.erros := by
  have hst1 : processRow ctx st r1 =
      { st with currentBloco := some (Bloco.mk
          (if !st.currentItem.isEmpty then st.currentItem
            else (dlookup ctx.idToItem
              (makeIdNorm (buildEntryFromRow (normalizeRow r1) .composicao).codigo
                (buildEntryFromRow (normalizeRow r1) .composicao).banco)).getD [])
          (linhaOfEntry (buildEntryFromRow (normalizeRow r1) .composicao)) [] []) } := by
    rw [processRow]
    rw [if_neg (by rw [h1e]; exact Bool.false_ne_true)]
    rw [if_neg (by rw [h1b]; exact Bool.false_ne_true)]
    rw [if_neg (by rw [h1h]; exact Bool.false_ne_true)]
    rw [if_neg (by rw [h1c]; exact Bool.false_ne_true)]
    rw [if_neg (by rw [h1a]; exact Bool.false_ne_true)]
    simp only [h1d]
    rw [flushBloco]
    simp only [h0, h1r]
  have hst2 : processRow ctx (processRow ctx st r1) raux =
      { processRow ctx st r1 with
        currentBloco := some (Bloco.mk
          (if !st.currentItem.isEmpty then st.currentItem
            else (dlookup ctx.idToItem
              (makeIdNorm (buildEntryFromRow (normalizeRow r1) .composicao).codigo
                (buildEntryFromRow (normalizeRow r1) .composicao).banco)).getD [])
          (linhaOfEntry (buildEntryFromRow (normalizeRow r1) .composicao))
          [linhaOfEntry (buildEntryFromRow (normalizeRow raux) .composicaoAuxiliar)] []),
        auxiliaresGlobais := dinsert (processRow ctx st r1).auxiliaresGlobais
          (makeId (buildEntryFromRow (normalizeRow raux) .composicaoAuxiliar).codigo
            (buildEntryFromRow (normalizeRow raux) .composicaoAuxiliar).banco)
          (linhaOfEntry (buildEntryFromRow (normalizeRow raux) .composicaoAuxiliar)) } := by
    conv_lhs => rw [processRow]
    rw [if_neg (by rw [hae]; exact Bool.false_ne_true)]
    rw [if_neg (by rw [hab]; exact Bool.false_ne_true)]
    rw [if_neg (by rw [hah]; exact Bool.false_ne_true)]
    rw [if_neg (by rw [hac]; exact Bool.false_ne_true)]
    rw [if_neg (by rw [haa]; exact Bool.false_ne_true)]
    simp only [had]
    rw [hst1]
    rfl
  have hst3 : processRow ctx (processRow ctx (processRow ctx st r1) raux) r2 =
      { processRow ctx (processRow ctx st r1) raux with
        principais := dinsert (processRow ctx (processRow ctx st r1) raux).principais
          (makeId (buildEntryFromRow (normalizeRow r1) .composicao).codigo
            (buildEntryFromRow (normalizeRow r1) .composicao).banco)
          (Bloco.mk
            (if !st.currentItem.isEmpty then st.currentItem
              else (dlookup ctx.idToItem
                (makeIdNorm (buildEntryFromRow (normalizeRow r1) .composicao).codigo
                  (buildEntryFromRow (normalizeRow r1) .composicao).banco)).getD [])
            (linhaOfEntry (buildEntryFromRow (normalizeRow r1) .composicao))
            [linhaOfEntry (buildEntryFromRow (normalizeRow raux) .composicaoAuxiliar)] []),
        currentBloco := some (Bloco.mk
          (if !st.currentItem.isEmpty then st.currentItem
            else (dlookup ctx.idToItem
              (makeIdNorm (buildEntryFromRow (normalizeRow r2) .composicao).codigo
                (buildEntryFromRow (normalizeRow r2) .composicao).banco)).getD [])
          (linhaOfEntry (buildEntryFromRow (normalizeRow r2) .composicao)) [] []) } := by
    conv_lhs => rw [processRow]
    rw [if_neg (by rw [h2e]; exact Bool.false_ne_true)]
    rw [if_neg (by rw [h2b]; exact Bool.false_ne_true)]
    rw [if_neg (by rw [h2h]; exact Bool.false_ne_true)]
    rw [if_neg (by rw [h2c]; exact Bool.false_ne_true)]
    rw [if_neg (by rw [h2a]; exact Bool.false_ne_true)]
    simp only [h2d]
    rw [hst2, hst1]
    rw [flushBloco]
    simp only [h2r]
    rfl
  have hfin : processRows ctx st [r1, raux, r2] =
      { processRow ctx (processRow ctx (processRow ctx st r1) raux) r2 with
        principais := dinsert
          (processRow ctx (processRow ctx (processRow ctx st r1) raux) r2).principais
          (makeId (buildEntryFromRow (normalizeRow r2) .composicao).codigo
            (buildEntryFromRow (normalizeRow r2) .composicao).banco)
          (Bloco.mk
            (if !st.currentItem.isEmpty then st.currentItem
              else (dlookup ctx.idToItem
                (makeIdNorm (buildEntryFromRow (normalizeRow r2) .composicao).codigo
                  (buildEntryFromRow (normalizeRow r2) .composicao).banco)).getD [])
            (linhaOfEntry (buildEntryFromRow (normalizeRow r2) .composicao)) [] []),
        currentBloco := none } := by
    rw [processRows, List.foldl_cons, List.foldl_cons, List.foldl_cons, List.foldl_nil]
    rw [hst3, hst2, hst1]
    rw [flushBloco]
    rfl
  refine ⟨?_, ?_, ?_⟩
  · rw [hfin, hst3, hkey]
    exact dlookup_dinsert_self _ _ _
  · rw [hfin, hst3, hst2, hst1]
  · rw [hfin, hst3, hst2, hst1]

theorem duplicate_principal_last_wins_witness :
    detect_row_type (rowGet (normalizeRow
        [some (str "Composição"), some (str "88316"), some (str "SINAPI"),
         some (str "desc um"), some (str ""), some (str "M2"),
         some (str "1,00"), some (str "10,00"), some (str "10,00")]) 0)
      = some RowType.composicao
    ∧ detect_row_type (rowGet (normalizeRow
        [some (str "Composição Auxiliar"), some (str "123456"), some (str "SINAPI"),
         some (str "aux"), some (str ""), some (str "M2"),
         some (str "1,00"), some (str "10,00"), some (str "10,00")]) 0)
      = some RowType.composicaoAuxiliar
    ∧ detect_row_type (rowGet (normalizeRow
        [some (str "Composição"), some (str "88316"), some (str "SINAPI"),
         some (str "desc dois"), some (str ""), some (str "M2"),
         some (str "1,00"), some (str "10,00"), some (str "10,00")]) 0)
      = some RowType.composicao
    ∧ makeId (buildEntryFromRow (normalizeRow
        [some (str "Composição"), some (str "88316"), some (str "SINAPI"),
         some (str "desc dois"), some (str ""), some (str "M2"),
         some (str "1,00"), some (str "10,00"), some (str "10,00")]) .composicao).codigo
        (buildEntryFromRow (normalizeRow
        [some (str "Composição"), some (str "88316"), some (str "SINAPI"),
         some (str "desc dois"), some (str ""), some (str "M2"),
         some (str "1,00"), some (str "10,00"), some (str "10,00")]) .composicao).banco
      = makeId (buildEntryFromRow (normalizeRow
        [some (str "Composição"), some (str "88316"), some (str "SINAPI"),
         some (str "desc um"), some (str ""), some (str "M2"),
         some (str "1,00"), some (str "10,00"), some (str "10,00")]) .composicao).codigo
        (buildEntryFromRow (normalizeRow
        [some (str "Composição"), some (str "88316"), some (str "SINAPI"),
         some (str "desc um"), some (str ""), some (str "M2"),
         some (str "1,00"), some (str "10,00"), some (str "10,00")]) .composicao).banco
    ∧ (dlookup (processRows emptyRecCtx initCompState
          [[some (str "Composição"), some (str "88316"), some (str "SINAPI"),
            some (str "desc um"), some (str ""), some (str "M2"),
            some (str "1,00"), some (str "10,00"), some (str "10,00")],
           [some (str "Composição Auxiliar"), some (str "123456"), some (str "SINAPI"),
            some (str "aux"), some (str ""), some (str "M2"),
            some (str "1,00"), some (str "10,00"), some (str "10,00")],
           [some (str "Composição"), some (str "88316"), some (str "SINAPI"),
            some (str "desc dois"), some (str ""), some (str "M2"),
            some (str "1,00"), some (str "10,00"), some (str "10,00")]]).principais
          (makeId (buildEntryFromRow (normalizeRow
            [some (str "Composição"), some (str "88316"), some (str "SINAPI"),
             some (str "desc um"), some (str ""), some (str "M2"),
             some (str "1,00"), some (str "10,00"), some (str "10,00")]) .composicao).codigo
            (buildEntryFromRow (normalizeRow
            [some (str "Composição"), some (str "88316"), some (str "SINAPI"),
             some (str "desc um"), some (str ""), some (str "M2"),
             some (str "1,00"), some (str "10,00"), some (str "10,00")]) .composicao).banco)
        = some (Bloco.mk
            (if !initCompState.currentItem.isEmpty then initCompState.currentItem
              else (dlookup emptyRecCtx.idToItem
                (makeIdNorm (buildEntryFromRow (normalizeRow
                  [some (str "Composição"), some (str "88316"), some (str "SINAPI"),
                   some (str "desc dois"), some (str ""), some (str "M2"),
                   some (str "1,00"), some (str "10,00"), some (str "10,00")]) .composicao).codigo
                  (buildEntryFromRow (normalizeRow
                  [some (str "Composição"), some (str "88316"), some (str "SINAPI"),
                   some (str "desc dois"), some (str ""), some (str "M2"),
                   some (str "1,00"), some (str "10,00"), some (str "10,00")]) .composicao).banco)).getD [])
            (linhaOfEntry (buildEntryFromRow (normalizeRow
              [some (str "Composição"), some (str "88316"), some (str "SINAPI"),
               some (str "desc dois"), some (str ""), some (str "M2"),
               some (str "1,00"), some (str "10,00"), some (str "10,00")]) .composicao)) [] [])
      ∧ (processRows emptyRecCtx initCompState
          [[some (str "Composição"), some (str "88316"), some (str "SINAPI"),
            some (str "desc um"), some (str ""), some (str "M2"),
            some (str "1,00"), some (str "10,00"), some (str "10,00")],
           [some (str "Composição Auxiliar"), some (str "123456"), some (str "SINAPI"),
            some (str "aux"), some (str ""), some (str "M2"),
            some (str "1,00"), some (str "10,00"), some (str "10,00")],
           [some (str "Composição"), some (str "88316"), some (str "SINAPI"),
            some (str "desc dois"), some (str ""), some (str "M2"),
            some (str "1,00"), some (str "10,00"), some (str "10,00")]]).avisos
        = initCompState.avisos
      ∧ (processRows emptyRecCtx initCompState
          [[some (str "Composição"), some (str "88316"), some (str "SINAPI"),
            some (str "desc um"), some (str ""), some (str "M2"),
            some (str "1,00"), some (str "10,00"), some (str "10,00")],
           [some (str "Composição Auxiliar"), some (str "123456"), some (str "SINAPI"),
            some (str "aux"), some (str ""), some (str "M2"),
            some (str "1,00"), some (str "10,00"), some (str "10,00")],
           [some (str "Composição"), some (str "88316"), some (str "SINAPI"),
            some (str "desc dois"), some (str ""), some (str "M2"),
            some (str "1,00"), some (str "10,00"), some (str "10,00")]]).erros
        = initCompState.erros) :=
  ⟨by decide, by decide, by decide, by decide,
   duplicate_principal_last_wins emptyRecCtx initCompState
     [some (str "Composição"), some (str "88316"), some (str "SINAPI"),
      some (str "desc um"), some (str ""), some (str "M2"),
      some (str "1,00"), some (str "10,00"), some (str "10,00")]
     [some (str "Composição Auxiliar"), some (str "123456"), some (str "SINAPI"),
      some (str "aux"), some (str ""), some (str "M2"),
      some (str "1,00"), some (str "10,00"), some (str "10,00")]
     [some (str "Composição"), some (str "88316"), some (str "SINAPI"),
      some (str "desc dois"), some (str ""), some (str "M2"),
      some (str "1,00"), some (str "10,00"), some (str "10,00")]
     rfl (by decide) (by decide) (by decide) (by decide) (by decide) (by decide)
     (by decide) (by decide) (by decide) (by decide) (by decide) (by decide)
     (by decide) (by decide) (by decide) (by decide) (by decide) (by decide)
     (by decide) (by decide) (by decide)⟩

/-- Counterexample for C5 as frozen: the two numeric parsers disagree on
the string "1.2" — the extractor's `parse_pt_number` removes the dot
before its digits-and-optional-comma test and returns 12.0, while the
budget pass's `parse_ptbr_number` rejects it because a thousands dot must
be followed by exactly three digits. -/
theorem numericParsers_dot_cex :
    parse_pt_number (str "1.2") = some (mkRat 12 1)
    ∧ parse_ptbr_number (str "1.2") = none := by
  decide
